import Mathlib

/-!
Verification development for a remote-support pairing server.

The embedding below translates the session authority (src/server/memoryStore.js
and src/server/socket.js) and the endpoint-local WebRTC negotiation controller
(the WebRtcManager class) into pure Lean definitions.  Server-side socket state
(socket.data.userId per live connection) is modelled as an association list from
socket id to user id; the room registry (a Map keyed by the 6-digit room id) is
modelled as a list of rooms in insertion order.  Each socket.io event handler
becomes a function from server state and event parameters to the new server
state together with the list of emitted messages.
-/

namespace RemoteSupport

/-- Participant role, from types.ts. -/
inductive Role where
  | host
  | client
deriving DecidableEq, Repr

/-- Stream purpose label, from types.ts. -/
inductive StreamKind where
  | screen
  | camera
deriving DecidableEq, Repr

/-- Room record, from the Room interface in types.ts.  Optional fields of the
JS object are Option values; stored user ids always match the USER_ID_PATTERN
so they are never the empty string, hence JS truthiness coincides with
Option.isSome. -/
structure Room where
  id : String
  hostUserId : String
  clientUserId : Option String := none
  hostSocketId : Option String := none
  clientSocketId : Option String := none
  controlActive : Bool := false
  cameraActive : Bool := false
deriving DecidableEq, Repr

/-- Whole-server state: the room registry (memoryStore.js rooms Map, in
insertion order) and the identity binding of each live identified socket
(socket.data.userId, reachable through io.sockets.sockets). -/
structure ServerState where
  rooms : List Room := []
  sockets : List (String × String) := []
deriving DecidableEq, Repr

/-- Association-list lookup by socket id (first binding wins, as in a JS Map
whose keys are unique). -/
def assocLookup (l : List (String × String)) (k : String) : Option String :=
  match l with
  | [] => none
  | (k', v') :: rest => if k' = k then some v' else assocLookup rest k

/-- Association-list update: replace the binding for k, or append it. -/
def assocSet (l : List (String × String)) (k v : String) : List (String × String) :=
  match l with
  | [] => [(k, v)]
  | (k', v') :: rest => if k' = k then (k, v) :: rest else (k', v') :: assocSet rest k v

/-- Association-list removal of the binding for k (keys are unique). -/
def assocErase (l : List (String × String)) (k : String) : List (String × String) :=
  match l with
  | [] => []
  | (k', v') :: rest => if k' = k then rest else (k', v') :: assocErase rest k

/-- USER_ID_PATTERN from socket.js: 10 to 80 characters of [a-z0-9-], case
insensitive. -/
def isUserId (s : String) : Bool :=
  decide (10 ≤ s.length) && decide (s.length ≤ 80) &&
    s.data.all (fun c => c.isAlphanum || c == '-')

/-- ROOM_ID_PATTERN from socket.js and memoryStore.js: exactly 6 digits. -/
def isRoomId (s : String) : Bool :=
  decide (s.length = 6) && s.data.all Char.isDigit

/-- getRoom from memoryStore.js. -/
def getRoom (rooms : List Room) (roomId : String) : Option Room :=
  rooms.find? (fun r => r.id = roomId)

/-- findRoomByUserId from memoryStore.js: first room (in insertion order)
whose host, else client, matches. -/
def findRoomByUserId (rooms : List Room) (userId : String) : Option (Room × Role) :=
  match rooms with
  | [] => none
  | r :: rest =>
    if r.hostUserId = userId then some (r, Role.host)
    else if r.clientUserId = some userId then some (r, Role.client)
    else findRoomByUserId rest userId

/-- attachSocket from memoryStore.js. -/
def attachSocket (room : Room) (role : Role) (socketId : String) : Room :=
  match role with
  | Role.host => { room with hostSocketId := some socketId }
  | Role.client => { room with clientSocketId := some socketId }

/-- clearSocket from memoryStore.js: drop the role's socket binding and force
both activity flags false. -/
def clearSocket (room : Room) (role : Role) : Room :=
  match role with
  | Role.host => { room with hostSocketId := none, controlActive := false, cameraActive := false }
  | Role.client => { room with clientSocketId := none, controlActive := false, cameraActive := false }

/-- removeSocket from memoryStore.js: findRoomBySocketId (host checked before
client, insertion order) followed by clearSocket on the room found.  Returns
the updated registry together with the detached room (post-clear, matching the
mutated JS object) and role. -/
def removeSocketFromRooms (rooms : List Room) (socketId : String) :
    List Room × Option (Room × Role) :=
  match rooms with
  | [] => ([], none)
  | r :: rest =>
    if r.hostSocketId = some socketId then
      ((clearSocket r Role.host) :: rest, some (clearSocket r Role.host, Role.host))
    else if r.clientSocketId = some socketId then
      ((clearSocket r Role.client) :: rest, some (clearSocket r Role.client, Role.client))
    else
      let res := removeSocketFromRooms rest socketId
      (r :: res.1, res.2)

/-- canUserControlRoom from memoryStore.js. -/
def canUserControlRoom (room : Room) (userId : String) : Bool :=
  room.hostUserId = userId

/-- canUserActAsClient from memoryStore.js. -/
def canUserActAsClient (room : Room) (userId : String) : Bool :=
  room.clientUserId = some userId

/-- Replace (in place) the room whose id matches; the JS handlers mutate the
room object held in the registry Map, which this models since live room ids
are unique. -/
def setRoom (rooms : List Room) (roomId : String) (room' : Room) : List Room :=
  match rooms with
  | [] => []
  | r :: rest => if r.id = roomId then room' :: rest else r :: setRoom rest roomId room'

/-- normalizeRoomState from socket.js lines 120-138: re-establish invariants
1-3, resetting both activity flags whenever anything had to be cleared. -/
def normalizeRoomState (room : Room) : Room :=
  let p1 := if room.clientUserId = some room.hostUserId then
      ({ room with clientUserId := none }, true)
    else (room, false)
  let p2 := if p1.1.clientSocketId.isSome ∧ p1.1.clientSocketId = p1.1.hostSocketId then
      ({ p1.1 with clientSocketId := none }, true)
    else p1
  let p3 := if p2.1.clientUserId = none ∧ p2.1.clientSocketId.isSome then
      ({ p2.1 with clientSocketId := none }, true)
    else p2
  if p3.2 then { p3.1 with controlActive := false, cameraActive := false }
  else p3.1

/-- isCurrentSocketForRole from socket.js lines 98-102. -/
def isCurrentSocketForRole (room : Room) (role : Role) (socketId : String) : Bool :=
  match role with
  | Role.host => room.hostSocketId = some socketId
  | Role.client => room.clientSocketId = some socketId

/-- roleOfUserInRoom from socket.js lines 103-111. -/
def roleOfUserInRoom (room : Room) (userId : String) : Option Role :=
  if room.hostUserId = userId then some Role.host
  else if room.clientUserId = some userId then some Role.client
  else none

/-- roomPeerSocketId from socket.js lines 112-119. -/
def roomPeerSocketId (room : Room) (role : Role) : Option String :=
  let peerSocketId := match role with
    | Role.host => room.clientSocketId
    | Role.client => room.hostSocketId
  let selfSocketId := match role with
    | Role.host => room.hostSocketId
    | Role.client => room.clientSocketId
  match peerSocketId with
  | none => none
  | some p => if some p = selfSocketId then none else some p

/-- Messages the gateway emits, tagged with the destination socket id. -/
inductive ServerEmit where
  | errorTo (sid : String) (message : String)
  | identifyOkTo (sid : String) (restored : Bool)
  | sessionRestoredTo (sid : String)
  | peerReconnectedTo (sid : String)
  | roomUpdateTo (sid : String) (roomId : String)
  | roomCreatedTo (sid : String) (roomId : String)
  | roomJoinedTo (sid : String) (roomId : String)
  | clientJoinedTo (sid : String)
  | roomRejoinedTo (sid : String)
  | webrtcSignalTo (sid : String) (fromUserId : String)
  | cameraRequestTo (sid : String)
  | cameraPermissionTo (sid : String) (granted : Bool)
  | mediaKindTo (sid : String) (streamId : String) (kind : StreamKind)
  | peerDisconnectedTo (sid : String)
deriving DecidableEq, Repr

/-- emitRoomUpdate from socket.js lines 146-154: identical snapshot to
whichever of host and client currently has a socket. -/
def emitRoomUpdate (room : Room) : List ServerEmit :=
  (match room.hostSocketId with
   | some h => [ServerEmit.roomUpdateTo h room.id]
   | none => []) ++
  (match room.clientSocketId with
   | some c => [ServerEmit.roomUpdateTo c room.id]
   | none => [])

/-- restoreSession from socket.js lines 155-173: normalize, attach the calling
socket to its role, normalize again, notify caller, peer (if live) and both
bound sockets. -/
def restoreSession (st : ServerState) (sid : String) (room : Room) (role : Role) :
    ServerState × List ServerEmit :=
  let room' := normalizeRoomState (attachSocket (normalizeRoomState room) role sid)
  let st' := { st with rooms := setRoom st.rooms room.id room' }
  let peerEmit := match roomPeerSocketId room' role with
    | some p => [ServerEmit.peerReconnectedTo p]
    | none => []
  (st', ServerEmit.sessionRestoredTo sid :: peerEmit ++ emitRoomUpdate room')

/-- identify handler, socket.js lines 185-206. -/
def handleIdentify (st : ServerState) (sid : String) (userId : String) :
    ServerState × List ServerEmit :=
  if ¬ isUserId userId then (st, [ServerEmit.errorTo sid "Invalid identify payload."])
  else
    let st1 := { st with sockets := assocSet st.sockets sid userId }
    match findRoomByUserId st1.rooms userId with
    | none => (st1, [ServerEmit.identifyOkTo sid false])
    | some (room, role) =>
      let res := restoreSession st1 sid room role
      (res.1, res.2 ++ [ServerEmit.identifyOkTo sid true])

/-- room:create handler, socket.js lines 207-226.  ensureRoomId draws a fresh
6-digit code by rejection sampling; the freshId parameter stands for that
nondeterministic draw, so the creation branch requires it to be a 6-digit code
absent from the registry (other parameter values correspond to no real
execution and are mapped to a no-op). -/
def handleRoomCreate (st : ServerState) (sid : String) (freshId : String) :
    ServerState × List ServerEmit :=
  match assocLookup st.sockets sid with
  | none => (st, [ServerEmit.errorTo sid "Identify first."])
  | some userId =>
    match findRoomByUserId st.rooms userId with
    | some (room, Role.host) =>
      let res := restoreSession st sid room Role.host
      (res.1, res.2 ++ [ServerEmit.roomCreatedTo sid room.id])
    | some (_, Role.client) =>
      (st, [ServerEmit.errorTo sid "Already joined another room as client."])
    | none =>
      if isRoomId freshId ∧ getRoom st.rooms freshId = none then
        let room : Room :=
          { id := freshId, hostUserId := userId, hostSocketId := some sid }
        let st' := { st with rooms := st.rooms ++ [room] }
        (st', ServerEmit.roomCreatedTo sid freshId :: emitRoomUpdate room)
      else (st, [])

/-- The room:join cross-room check (socket.js lines 242-246): the caller is
already attached to some other room. -/
def attachedElsewhere (rooms : List Room) (userId roomId : String) : Bool :=
  match findRoomByUserId rooms userId with
  | some (other, _) => other.id != roomId
  | none => false

/-- room:join handler, socket.js lines 227-270. -/
def handleRoomJoin (st : ServerState) (sid : String) (roomId : String) :
    ServerState × List ServerEmit :=
  if ¬ isRoomId roomId then (st, [ServerEmit.errorTo sid "Invalid room join payload."])
  else
    match assocLookup st.sockets sid with
    | none => (st, [ServerEmit.errorTo sid "Identify first."])
    | some userId =>
      match getRoom st.rooms roomId with
      | none => (st, [ServerEmit.errorTo sid "Room not found."])
      | some room0 =>
        let room := normalizeRoomState room0
        let st1 := { st with rooms := setRoom st.rooms roomId room }
        if attachedElsewhere st1.rooms userId room.id then
          (st1, [ServerEmit.errorTo sid "Already attached to another room."])
        else if room.hostUserId = userId then
          (st1, [ServerEmit.errorTo sid "Host cannot join as client."])
        else if room.clientUserId.isSome ∧ room.clientUserId ≠ some userId ∧
            room.clientSocketId.isSome then
          (st1, [ServerEmit.errorTo sid "Room already has a different client."])
        else
          let room' := { room with
            clientUserId := some userId
            clientSocketId := some sid
            controlActive := false
            cameraActive := false }
          let st2 := { st1 with rooms := setRoom st1.rooms roomId room' }
          let hostEmit := match room'.hostSocketId with
            | some h => [ServerEmit.clientJoinedTo h]
            | none => []
          (st2, ServerEmit.roomJoinedTo sid roomId :: hostEmit ++ emitRoomUpdate room')

/-- rejoin-room handler, socket.js lines 271-310. -/
def handleRejoinRoom (st : ServerState) (sid : String) (roomId : String) (role : Role) :
    ServerState × List ServerEmit :=
  if ¬ isRoomId roomId then (st, [ServerEmit.errorTo sid "Invalid rejoin payload."])
  else
    match assocLookup st.sockets sid with
    | none => (st, [ServerEmit.errorTo sid "Identify first."])
    | some userId =>
      match getRoom st.rooms roomId with
      | none => (st, [ServerEmit.errorTo sid "Room not found for rejoin."])
      | some room0 =>
        let room := normalizeRoomState room0
        let st1 := { st with rooms := setRoom st.rooms roomId room }
        match role with
        | Role.host =>
          if room.hostUserId ≠ userId then
            (st1, [ServerEmit.errorTo sid "Only host owner can rejoin as host."])
          else
            let res := restoreSession st1 sid room Role.host
            (res.1, res.2 ++ [ServerEmit.roomRejoinedTo sid])
        | Role.client =>
          if room.hostUserId = userId then
            (st1, [ServerEmit.errorTo sid "Host cannot rejoin as client."])
          else
            match room.clientUserId with
            | some v =>
              if v ≠ userId then
                (st1, [ServerEmit.errorTo sid "Only assigned client can rejoin as client."])
              else
                let res := restoreSession st1 sid room Role.client
                (res.1, res.2 ++ [ServerEmit.roomRejoinedTo sid])
            | none =>
              let room2 := { room with clientUserId := some userId }
              let st2 := { st1 with rooms := setRoom st1.rooms roomId room2 }
              let res := restoreSession st2 sid room2 Role.client
              (res.1, res.2 ++ [ServerEmit.roomRejoinedTo sid])

/-- WebRTC signal payload shape (types.ts); the gateway treats the content as
opaque beyond shape validation. -/
inductive WSignal where
  | offer (sdp : String)
  | answer (sdp : String)
  | iceCandidate (candidate : String)
deriving DecidableEq, Repr

/-- isWebRtcSignal from socket.js: offers and answers carry a nonempty sdp. -/
def signalShapeOk (signal : WSignal) : Bool :=
  match signal with
  | WSignal.offer sdp => decide (0 < sdp.length)
  | WSignal.answer sdp => decide (0 < sdp.length)
  | WSignal.iceCandidate _ => true

/-- webrtc:signal handler, socket.js lines 311-344. -/
def handleWebRtcSignal (st : ServerState) (sid : String) (roomId : String)
    (signal : WSignal) : ServerState × List ServerEmit :=
  if ¬ (isRoomId roomId ∧ signalShapeOk signal) then
    (st, [ServerEmit.errorTo sid "Invalid WebRTC signal payload."])
  else
    match assocLookup st.sockets sid with
    | none => (st, [ServerEmit.errorTo sid "Identify first."])
    | some userId =>
      match getRoom st.rooms roomId with
      | none => (st, [ServerEmit.errorTo sid "Room not found for signaling."])
      | some room0 =>
        let room := normalizeRoomState room0
        let st1 := { st with rooms := setRoom st.rooms roomId room }
        match roleOfUserInRoom room userId with
        | none => (st1, [ServerEmit.errorTo sid "Unauthorized signaling attempt."])
        | some role =>
          if ¬ isCurrentSocketForRole room role sid then
            (st1, [ServerEmit.errorTo sid "Stale socket signaling rejected."])
          else
            match roomPeerSocketId room role with
            | none => (st1, [])
            | some target => (st1, [ServerEmit.webrtcSignalTo target userId])

/-- control:status handler, socket.js lines 345-366. -/
def handleControlStatus (st : ServerState) (sid : String) (roomId : String)
    (active : Bool) : ServerState × List ServerEmit :=
  if ¬ isRoomId roomId then (st, [ServerEmit.errorTo sid "Invalid control status payload."])
  else
    match assocLookup st.sockets sid with
    | none => (st, [ServerEmit.errorTo sid "Identify first."])
    | some userId =>
      match getRoom st.rooms roomId with
      | none => (st, [ServerEmit.errorTo sid "Room not found for control update."])
      | some room0 =>
        let room := normalizeRoomState room0
        let st1 := { st with rooms := setRoom st.rooms roomId room }
        if ¬ (canUserControlRoom room userId ∧ room.hostSocketId = some sid) then
          (st1, [ServerEmit.errorTo sid "Only active host can update control state."])
        else
          let room' := { room with controlActive := active && room.clientSocketId.isSome }
          let st2 := { st1 with rooms := setRoom st1.rooms roomId room' }
          (st2, emitRoomUpdate room')

/-- camera:request handler, socket.js lines 367-409, including the live-client
re-validation against the transport's socket table. -/
def handleCameraRequest (st : ServerState) (sid : String) (roomId : String) :
    ServerState × List ServerEmit :=
  if ¬ isRoomId roomId then (st, [ServerEmit.errorTo sid "Invalid camera request payload."])
  else
    match assocLookup st.sockets sid with
    | none => (st, [ServerEmit.errorTo sid "Identify first."])
    | some userId =>
      match getRoom st.rooms roomId with
      | none => (st, [ServerEmit.errorTo sid "Room not found for camera request."])
      | some room0 =>
        let room := normalizeRoomState room0
        let st1 := { st with rooms := setRoom st.rooms roomId room }
        if ¬ (canUserControlRoom room userId ∧ room.hostSocketId = some sid) then
          (st1, [ServerEmit.errorTo sid "Only host can request camera."])
        else
          match room.clientSocketId with
          | none => (st1, [ServerEmit.errorTo sid "No connected client available."])
          | some cs =>
            let targetUserId := assocLookup st.sockets cs
            if room.clientUserId.isNone ∨ targetUserId.isNone ∨
                targetUserId ≠ room.clientUserId ∨ targetUserId = some room.hostUserId then
              let room' := { room with
                clientSocketId := none,
                clientUserId := if room.clientUserId = some room.hostUserId then none
                                else room.clientUserId,
                controlActive := false, cameraActive := false }
              let st2 := { st1 with rooms := setRoom st1.rooms roomId room' }
              (st2, emitRoomUpdate room' ++
                [ServerEmit.errorTo sid "No valid connected client available."])
            else (st1, [ServerEmit.cameraRequestTo cs])

/-- camera:permission handler, socket.js lines 410-439. -/
def handleCameraPermission (st : ServerState) (sid : String) (roomId : String)
    (granted : Bool) : ServerState × List ServerEmit :=
  if ¬ isRoomId roomId then (st, [ServerEmit.errorTo sid "Invalid camera permission payload."])
  else
    match assocLookup st.sockets sid with
    | none => (st, [ServerEmit.errorTo sid "Identify first."])
    | some userId =>
      match getRoom st.rooms roomId with
      | none => (st, [ServerEmit.errorTo sid "Room not found for camera permission."])
      | some room0 =>
        let room := normalizeRoomState room0
        let st1 := { st with rooms := setRoom st.rooms roomId room }
        if ¬ (canUserActAsClient room userId ∧ room.clientSocketId = some sid) then
          (st1, [ServerEmit.errorTo sid "Only active client can report camera permission."])
        else
          let room' := if granted then room else { room with cameraActive := false }
          let st2 := { st1 with rooms := setRoom st1.rooms roomId room' }
          let hostEmit := match room'.hostSocketId with
            | some h => [ServerEmit.cameraPermissionTo h granted]
            | none => []
          (st2, hostEmit ++ emitRoomUpdate room')

/-- camera:state handler, socket.js lines 440-461. -/
def handleCameraState (st : ServerState) (sid : String) (roomId : String)
    (active : Bool) : ServerState × List ServerEmit :=
  if ¬ isRoomId roomId then (st, [ServerEmit.errorTo sid "Invalid camera state payload."])
  else
    match assocLookup st.sockets sid with
    | none => (st, [ServerEmit.errorTo sid "Identify first."])
    | some userId =>
      match getRoom st.rooms roomId with
      | none => (st, [ServerEmit.errorTo sid "Room not found for camera state."])
      | some room0 =>
        let room := normalizeRoomState room0
        let st1 := { st with rooms := setRoom st.rooms roomId room }
        if ¬ (canUserActAsClient room userId ∧ room.clientSocketId = some sid) then
          (st1, [ServerEmit.errorTo sid "Only active client can update camera state."])
        else
          let room' := { room with cameraActive := active }
          let st2 := { st1 with rooms := setRoom st1.rooms roomId room' }
          (st2, emitRoomUpdate room')

/-- media:kind handler, socket.js lines 462-488. -/
def handleMediaKind (st : ServerState) (sid : String) (roomId : String)
    (streamId : String) (kind : StreamKind) : ServerState × List ServerEmit :=
  if ¬ (isRoomId roomId ∧ 0 < streamId.length) then
    (st, [ServerEmit.errorTo sid "Invalid media metadata payload."])
  else
    match assocLookup st.sockets sid with
    | none => (st, [ServerEmit.errorTo sid "Identify first."])
    | some userId =>
      match getRoom st.rooms roomId with
      | none => (st, [ServerEmit.errorTo sid "Room not found for media metadata."])
      | some room0 =>
        let room := normalizeRoomState room0
        let st1 := { st with rooms := setRoom st.rooms roomId room }
        if ¬ (canUserActAsClient room userId ∧ room.clientSocketId = some sid) then
          (st1, [ServerEmit.errorTo sid "Only active client can publish media metadata."])
        else
          let hostEmit := match room.hostSocketId with
            | some h => [ServerEmit.mediaKindTo h streamId kind]
            | none => []
          (st1, hostEmit)

/-- disconnect handler, socket.js lines 489-504; the socket also vanishes from
the transport's live-socket table. -/
def handleDisconnect (st : ServerState) (sid : String) : ServerState × List ServerEmit :=
  let sockets' := assocErase st.sockets sid
  let res := removeSocketFromRooms st.rooms sid
  match res.2 with
  | none => ({ rooms := res.1, sockets := sockets' }, [])
  | some (room, role) =>
    let peerSocketId := match role with
      | Role.host => room.clientSocketId
      | Role.client => room.hostSocketId
    let peerEmit := match peerSocketId with
      | some p => [ServerEmit.peerDisconnectedTo p]
      | none => []
    ({ rooms := res.1, sockets := sockets' }, peerEmit ++ emitRoomUpdate room)

/-- One inbound gateway event (socket.io message) tagged with the emitting
socket's id. -/
inductive GEvent where
  | identify (sid userId : String)
  | roomCreate (sid freshId : String)
  | roomJoin (sid roomId : String)
  | rejoinRoom (sid roomId : String) (role : Role)
  | webrtcSignal (sid roomId : String) (signal : WSignal)
  | controlStatus (sid roomId : String) (active : Bool)
  | cameraRequest (sid roomId : String)
  | cameraPermission (sid roomId : String) (granted : Bool)
  | cameraState (sid roomId : String) (active : Bool)
  | mediaKind (sid roomId streamId : String) (kind : StreamKind)
  | disconnect (sid : String)
deriving DecidableEq, Repr

/-- Dispatch one event to its handler (registerSocketHandlers). -/
def step (st : ServerState) (e : GEvent) : ServerState × List ServerEmit :=
  match e with
  | GEvent.identify sid userId => handleIdentify st sid userId
  | GEvent.roomCreate sid freshId => handleRoomCreate st sid freshId
  | GEvent.roomJoin sid roomId => handleRoomJoin st sid roomId
  | GEvent.rejoinRoom sid roomId role => handleRejoinRoom st sid roomId role
  | GEvent.webrtcSignal sid roomId signal => handleWebRtcSignal st sid roomId signal
  | GEvent.controlStatus sid roomId active => handleControlStatus st sid roomId active
  | GEvent.cameraRequest sid roomId => handleCameraRequest st sid roomId
  | GEvent.cameraPermission sid roomId granted => handleCameraPermission st sid roomId granted
  | GEvent.cameraState sid roomId active => handleCameraState st sid roomId active
  | GEvent.mediaKind sid roomId streamId kind => handleMediaKind st sid roomId streamId kind
  | GEvent.disconnect sid => handleDisconnect st sid

/-- Run a sequence of events from a state. -/
def execTrace (st : ServerState) (evs : List GEvent) : ServerState :=
  evs.foldl (fun s e => (step s e).1) st

/-- The empty server at process start. -/
def initialState : ServerState := { rooms := [], sockets := [] }

/-!
Endpoint-local WebRTC manager (the WebRtcManager class in the compiled client
bundle).  JavaScript is single-threaded: negotiateAsClient runs synchronously
up to its first await, and the finally block (flag reset plus the queued
follow-up call) runs as one uninterrupted sequence, so the method is modelled
as two atomic transitions: the call itself, and the completion of the awaited
offer round.  The openRounds counter is history bookkeeping: it goes up
whenever a createOffer round is started and down when that round's finally
block runs, so that at-most-one-in-flight is a provable property rather than
something built into a Bool.
-/

/-- Negotiation-serialization state of one WebRtcManager: the isNegotiating
and hasQueuedRenegotiation fields plus round-history counters. -/
structure NegState where
  isNegotiating : Bool := false
  hasQueuedRenegotiation : Bool := false
  roundsStarted : Nat := 0
  openRounds : Nat := 0
deriving DecidableEq, Repr

/-- negotiateAsClient (part_001 lines 602-627), up to its first await: the
role guard, then either record the queued renegotiation or start a round. -/
def negotiateAsClient (role : Option Role) (st : NegState) : NegState :=
  if role ≠ some Role.client then st
  else if st.isNegotiating then { st with hasQueuedRenegotiation := true }
  else { st with
    isNegotiating := true
    roundsStarted := st.roundsStarted + 1
    openRounds := st.openRounds + 1 }

/-- The finally block of negotiateAsClient: the in-flight round ends, and a
queued renegotiation is re-issued exactly once by calling negotiateAsClient
again (which re-checks the role). -/
def negRoundComplete (role : Option Role) (st : NegState) : NegState :=
  if st.isNegotiating = false then st
  else
    let st1 := { st with isNegotiating := false, openRounds := st.openRounds - 1 }
    if st1.hasQueuedRenegotiation then
      negotiateAsClient role { st1 with hasQueuedRenegotiation := false }
    else st1

/-- Scheduler events for one negotiation endpoint. -/
inductive NegEvent where
  | request (role : Option Role)
  | complete (role : Option Role)
deriving DecidableEq, Repr

/-- One scheduler transition. -/
def negStep (st : NegState) (e : NegEvent) : NegState :=
  match e with
  | NegEvent.request role => negotiateAsClient role st
  | NegEvent.complete role => negRoundComplete role st

/-- Run a sequence of negotiation events. -/
def negExec (st : NegState) (evs : List NegEvent) : NegState :=
  evs.foldl negStep st

/-- A fresh WebRtcManager: no round in flight, nothing queued. -/
def negInitial : NegState := {}

/-- Iterated renegotiation requests from the client role (N calls to
negotiateAsClient). -/
def applyRequests : Nat → NegState → NegState
  | 0, st => st
  | n + 1, st => applyRequests n (negotiateAsClient (some Role.client) st)

/-!
Offer/answer/ICE-candidate handling (handleSignal and
flushPendingIceCandidates in part_001).  The peer connection's remote
description and the class-level pendingIceCandidates buffer are the state;
calls into the RTCPeerConnection and the signaling relay are recorded as
effects.  An addIceCandidate attempt may fail at the transport; during a
flush such failures are caught and ignored, which the success oracle in
appliedCandidates accounts for.
-/

/-- Signaling-relevant state of the manager's peer connection. -/
structure RtcSignalingState where
  remoteDescriptionSet : Bool := false
  pendingIceCandidates : List String := []
deriving DecidableEq, Repr

/-- Calls made by handleSignal into the peer connection and the relay. -/
inductive RtcEffect where
  | setRemoteDescription (kind : String) (sdp : String)
  | attemptAddCandidate (candidate : String)
  | sendAnswer (sdp : String)
deriving DecidableEq, Repr

/-- flushPendingIceCandidates (part_001 lines 708-722): a no-op without a
remote description; otherwise drain the buffer and attempt every drained
candidate in order, ignoring individual failures. -/
def flushPendingIceCandidates (st : RtcSignalingState) :
    RtcSignalingState × List RtcEffect :=
  if st.remoteDescriptionSet = false then (st, [])
  else ({ st with pendingIceCandidates := [] },
        st.pendingIceCandidates.map RtcEffect.attemptAddCandidate)

/-- handleSignal (part_001 lines 380-404).  answerSdp stands for the sdp the
local createAnswer produces on the offer path. -/
def handleSignal (st : RtcSignalingState) (signal : WSignal) (answerSdp : String) :
    RtcSignalingState × List RtcEffect :=
  match signal with
  | WSignal.offer sdp =>
    let st1 : RtcSignalingState := { st with remoteDescriptionSet := true }
    let flushed := flushPendingIceCandidates st1
    (flushed.1, RtcEffect.setRemoteDescription "offer" sdp :: flushed.2 ++
      [RtcEffect.sendAnswer answerSdp])
  | WSignal.answer sdp =>
    let st1 : RtcSignalingState := { st with remoteDescriptionSet := true }
    let flushed := flushPendingIceCandidates st1
    (flushed.1, RtcEffect.setRemoteDescription "answer" sdp :: flushed.2)
  | WSignal.iceCandidate c =>
    if st.remoteDescriptionSet then (st, [RtcEffect.attemptAddCandidate c])
    else ({ st with pendingIceCandidates := st.pendingIceCandidates ++ [c] }, [])

/-- The attemptAddCandidate calls in an effect list, in order. -/
def candidateAttempts (effs : List RtcEffect) : List String :=
  effs.filterMap fun e =>
    match e with
    | RtcEffect.attemptAddCandidate c => some c
    | _ => none

/-- The candidates that actually get applied, given which attempts the peer
connection accepts. -/
def appliedCandidates (ok : String → Bool) (effs : List RtcEffect) : List String :=
  effs.filterMap fun e =>
    match e with
    | RtcEffect.attemptAddCandidate c => if ok c then some c else none
    | _ => none

/-- Deliver a sequence of ice-candidate signals to handleSignal, accumulating
effects. -/
def deliverCandidates (st : RtcSignalingState) (cs : List String) :
    RtcSignalingState × List RtcEffect :=
  match cs with
  | [] => (st, [])
  | c :: rest =>
    let r1 := handleSignal st (WSignal.iceCandidate c) ""
    let r2 := deliverCandidates r1.1 rest
    (r2.1, r1.2 ++ r2.2)

/-!
Remote-input protocol (handleControlMessage, isInboundControlMessage and
dispatchMouseEvent in part_001).  Inbound data-channel payloads are JSON; the
dynamic value produced by JSON.parse is embedded as the JVal type (JSON.parse
can only yield finite numbers, modelled as rationals).  The DOM side effects
the handler can perform are recorded as a list of ControlEffect values; an
empty list is a complete no-op.
-/

/-- A parsed JSON value. -/
inductive JVal where
  | jnull
  | jbool (b : Bool)
  | jnum (q : Rat)
  | jstr (s : String)
  | jarr (elems : List JVal)
  | jobj (fields : List (String × JVal))

/-- Property access on a parsed value: only objects have fields. -/
def JVal.lookupField (v : JVal) (key : String) : Option JVal :=
  match v with
  | JVal.jobj fields => fields.lookup key
  | _ => none

/-- typeof payload.key is a string, and its value. -/
def strField (v : JVal) (key : String) : Option String :=
  match v.lookupField key with
  | some (JVal.jstr s) => some s
  | _ => none

/-- typeof payload.key is a (finite) number, and its value. -/
def numField (v : JVal) (key : String) : Option Rat :=
  match v.lookupField key with
  | some (JVal.jnum q) => some q
  | _ => none

/-- isInboundControlMessage (part_001 lines 207-229). -/
def isInboundControlMessage (payload : JVal) : Bool :=
  match payload with
  | JVal.jobj _ =>
    match strField payload "type" with
    | none => false
    | some t =>
      match strField payload "senderUserId" with
      | none => false
      | some sender =>
        if sender.length < 10 then false
        else if t = "mousemove" then
          (numField payload "x").isSome && (numField payload "y").isSome
        else if t = "click" then
          (numField payload "x").isSome && (numField payload "y").isSome &&
            (numField payload "button").isSome
        else if t = "scroll" then
          (numField payload "deltaX").isSome && (numField payload "deltaY").isSome
        else decide (t = "toggle-camera" ∨ t = "toggle-mic")
  | _ => false

/-- The raw argument of a data-channel message event as handleControlMessage
sees it: a non-string value, an unparseable string, or a string that parses to
a JSON value. -/
inductive RawData where
  | nonString
  | unparseable
  | parsed (v : JVal)

/-- Side effects of handleControlMessage: a window scroll, a remote-media
command callback, or a synthetic mouse event dispatch attempt at rounded
pixel coordinates. -/
inductive ControlEffect where
  | scrollBy (deltaX deltaY : Rat)
  | remoteMediaCommand (command : String)
  | mouseDispatch (kind : String) (x y : Int) (button : Rat)
deriving DecidableEq, Repr

/-- clamp from part_001: Math.min(Math.max(value, lo), hi). -/
def clampRat (value lo hi : Rat) : Rat :=
  min (max value lo) hi

/-- Math.round: floor of value plus one half. -/
def jsRound (q : Rat) : Int :=
  ⌊q + 1 / 2⌋

/-- senderUserId of a validated payload. -/
def senderUserIdOf (payload : JVal) : Option String :=
  strField payload "senderUserId"

/-- handleControlMessage (part_001 lines 541-581): role guard, parse, schema
validation, host-identity authorization, then the pointer, scroll or
media-toggle effect. -/
def handleControlMessage (role : Option Role) (raw : RawData)
    (hostUserId : Option String) (innerWidth innerHeight : Rat) :
    List ControlEffect :=
  if role ≠ some Role.client then []
  else
    match raw with
    | RawData.nonString => []
    | RawData.unparseable => []
    | RawData.parsed parsed =>
      if ¬ isInboundControlMessage parsed then []
      else
        match hostUserId with
        | none => []
        | some h =>
          if senderUserIdOf parsed ≠ some h then []
          else
            let t := (strField parsed "type").getD ""
            if t = "scroll" then
              [ControlEffect.scrollBy ((numField parsed "deltaX").getD 0)
                ((numField parsed "deltaY").getD 0)]
            else if t = "toggle-camera" ∨ t = "toggle-mic" then
              [ControlEffect.remoteMediaCommand t]
            else
              let x := jsRound (clampRat ((numField parsed "x").getD 0) 0 1 * innerWidth)
              let y := jsRound (clampRat ((numField parsed "y").getD 0) 0 1 * innerHeight)
              if t = "mousemove" then
                [ControlEffect.mouseDispatch "mousemove" x y 0]
              else
                let b := (numField parsed "button").getD 0
                [ControlEffect.mouseDispatch "mousedown" x y b,
                 ControlEffect.mouseDispatch "mouseup" x y b,
                 ControlEffect.mouseDispatch "click" x y b]

/-!
Room invariants 1-3 from the specification, and the auxiliary state
consistency used to prove them inductive.
-/

/-- Invariants 1-3 for a single room: the client identity never equals the
host identity, a client socket requires a client identity, and the host and
client socket ids never coincide. -/
def RoomInv (r : Room) : Prop :=
  r.clientUserId ≠ some r.hostUserId ∧
  (r.clientSocketId.isSome → r.clientUserId.isSome) ∧
  (r.hostSocketId.isSome → r.hostSocketId ≠ r.clientSocketId)

instance (r : Room) : Decidable (RoomInv r) := by
  unfold RoomInv; infer_instance

/-- Auxiliary invariant: a live socket registered as a room's host socket is
identified as that room's host user. -/
def HostSockConsistent (sockets : List (String × String)) (r : Room) : Prop :=
  ∀ s u, r.hostSocketId = some s → assocLookup sockets s = some u → u = r.hostUserId

/-- Global server invariant: every room satisfies invariants 1-3, host socket
bindings are identity-consistent, and the live-socket table has one binding
per socket. -/
def StateInv (st : ServerState) : Prop :=
  (∀ r ∈ st.rooms, RoomInv r) ∧
  (∀ r ∈ st.rooms, HostSockConsistent st.sockets r) ∧
  (st.sockets.map Prod.fst).Nodup

/-- Well-formed event: socket.io guarantees socket ids are per-connection
unique and never reused, so an identify either re-binds the same user on an
already identified connection or happens on a connection whose id is brand
new (in particular not recorded as any room's host socket).  A second
identify with a different userId violates this condition; the code permits
it, which is exactly what breaks invariant 3 (see the counterexamples). -/
def WFEvent (st : ServerState) (e : GEvent) : Prop :=
  match e with
  | GEvent.identify sid u =>
      assocLookup st.sockets sid = some u ∨
      (assocLookup st.sockets sid = none ∧ ∀ r ∈ st.rooms, r.hostSocketId ≠ some sid)
  | _ => True

/-! Helper lemmas about the registry and socket-table primitives. -/

set_option maxHeartbeats 1600000 in
theorem roomInv_normalizeRoomState (r : Room) : RoomInv (normalizeRoomState r) := by
  obtain ⟨i, ho, cu, hs, cs, ctl, cam⟩ := r
  simp only [normalizeRoomState, RoomInv]
  rcases cu with _ | u <;> rcases hs with _ | a <;> rcases cs with _ | b <;>
    split_ifs <;> simp_all [eq_comm]

theorem normalizeRoomState_id (r : Room) : (normalizeRoomState r).id = r.id := by
  simp only [normalizeRoomState]
  split_ifs <;> rfl

theorem normalizeRoomState_hostUserId (r : Room) :
    (normalizeRoomState r).hostUserId = r.hostUserId := by
  simp only [normalizeRoomState]
  split_ifs <;> rfl

theorem normalizeRoomState_hostSocketId (r : Room) :
    (normalizeRoomState r).hostSocketId = r.hostSocketId := by
  simp only [normalizeRoomState]
  split_ifs <;> rfl

theorem normalizeRoomState_flags (r : Room)
    (h : (normalizeRoomState r).clientUserId ≠ r.clientUserId ∨
         (normalizeRoomState r).clientSocketId ≠ r.clientSocketId) :
    (normalizeRoomState r).controlActive = false ∧
      (normalizeRoomState r).cameraActive = false := by
  simp only [normalizeRoomState] at *
  split_ifs at * <;> simp_all

theorem assocLookup_assocSet (l : List (String × String)) (k v k' : String) :
    assocLookup (assocSet l k v) k' = if k = k' then some v else assocLookup l k' := by
  induction l with
  | nil => simp [assocSet, assocLookup]
  | cons p rest ih =>
    obtain ⟨a, b⟩ := p
    by_cases hak : a = k <;> by_cases hk' : k = k' <;>
      simp_all [assocSet, assocLookup]

theorem assocLookup_eq_none_of_not_mem (l : List (String × String)) (k : String)
    (h : k ∉ l.map Prod.fst) : assocLookup l k = none := by
  induction l with
  | nil => rfl
  | cons p rest ih =>
    obtain ⟨a, b⟩ := p
    simp only [List.map_cons, List.mem_cons] at h
    push_neg at h
    have hak : a ≠ k := fun hh => h.1 hh.symm
    simp [assocLookup, hak, ih h.2]

theorem assocLookup_assocErase_ne (l : List (String × String)) (k k' : String)
    (h : k' ≠ k) : assocLookup (assocErase l k) k' = assocLookup l k' := by
  induction l with
  | nil => simp [assocErase]
  | cons p rest ih =>
    obtain ⟨a, b⟩ := p
    by_cases hak : a = k <;> simp_all [assocErase, assocLookup]
    split_ifs <;> simp_all

theorem assocLookup_assocErase_self (l : List (String × String)) (k : String)
    (hnd : (l.map Prod.fst).Nodup) : assocLookup (assocErase l k) k = none := by
  induction l with
  | nil => simp [assocErase, assocLookup]
  | cons p rest ih =>
    obtain ⟨a, b⟩ := p
    simp only [List.map_cons, List.nodup_cons] at hnd
    by_cases hak : a = k
    · subst hak
      simp only [assocErase, if_pos rfl]
      exact assocLookup_eq_none_of_not_mem rest a hnd.1
    · simp [assocErase, hak, assocLookup, ih hnd.2]

theorem mem_keys_assocSet (l : List (String × String)) (k v a : String) :
    a ∈ (assocSet l k v).map Prod.fst → a = k ∨ a ∈ l.map Prod.fst := by
  induction l with
  | nil =>
    intro h
    simp only [assocSet, List.map_cons, List.map_nil, List.mem_singleton] at h
    exact Or.inl h
  | cons p rest ih =>
    obtain ⟨x, y⟩ := p
    intro h
    by_cases hxk : x = k
    · subst hxk
      simp only [assocSet, List.map_cons, List.mem_cons, if_true, eq_self_iff_true,
        ite_true] at h ⊢
      tauto
    · simp only [assocSet, if_neg hxk, List.map_cons, List.mem_cons] at h ⊢
      rcases h with h | h
      · tauto
      · rcases ih h with h' | h' <;> tauto

theorem nodup_keys_assocSet (l : List (String × String)) (k v : String)
    (h : (l.map Prod.fst).Nodup) : ((assocSet l k v).map Prod.fst).Nodup := by
  induction l with
  | nil => simp [assocSet]
  | cons p rest ih =>
    obtain ⟨x, y⟩ := p
    simp only [List.map_cons, List.nodup_cons] at h
    by_cases hxk : x = k
    · subst hxk
      simpa [assocSet] using h
    · simp only [assocSet, if_neg hxk, List.map_cons, List.nodup_cons]
      refine ⟨fun hmem => ?_, ih h.2⟩
      rcases mem_keys_assocSet rest k v x hmem with h' | h'
      · exact hxk h'
      · exact h.1 h'

theorem assocErase_sublist (l : List (String × String)) (k : String) :
    (assocErase l k).Sublist l := by
  induction l with
  | nil => simp [assocErase]
  | cons p rest ih =>
    obtain ⟨x, y⟩ := p
    by_cases hxk : x = k
    · simp [assocErase, hxk]
    · simpa [assocErase, hxk] using ih.cons₂ (x, y)

theorem nodup_keys_assocErase (l : List (String × String)) (k : String)
    (h : (l.map Prod.fst).Nodup) : ((assocErase l k).map Prod.fst).Nodup :=
  ((assocErase_sublist l k).map Prod.fst).nodup h

theorem mem_setRoom (rooms : List Room) (rid : String) (room' r'' : Room)
    (h : r'' ∈ setRoom rooms rid room') : r'' = room' ∨ r'' ∈ rooms := by
  induction rooms with
  | nil => simp [setRoom] at h
  | cons r rest ih =>
    by_cases hid : r.id = rid
    · simp only [setRoom, if_pos hid, List.mem_cons] at h
      rcases h with h | h
      · exact Or.inl h
      · exact Or.inr (List.mem_cons_of_mem _ h)
    · simp only [setRoom, if_neg hid, List.mem_cons] at h
      rcases h with h | h
      · exact Or.inr (h ▸ List.mem_cons_self _ _)
      · rcases ih h with h' | h'
        · exact Or.inl h'
        · exact Or.inr (List.mem_cons_of_mem _ h')

theorem forall_mem_setRoom {P : Room → Prop} {rooms : List Room} {rid : String}
    {room' : Room} (h1 : ∀ r ∈ rooms, P r) (h2 : P room') :
    ∀ r'' ∈ setRoom rooms rid room', P r'' := by
  intro r'' hmem
  rcases mem_setRoom rooms rid room' r'' hmem with h | h
  · exact h ▸ h2
  · exact h1 r'' h

theorem mem_setRoom_self (rooms : List Room) (rid : String) (room' : Room)
    (h : ∃ r ∈ rooms, r.id = rid) : room' ∈ setRoom rooms rid room' := by
  induction rooms with
  | nil => simp at h
  | cons r rest ih =>
    by_cases hid : r.id = rid
    · simp [setRoom, hid]
    · obtain ⟨r0, hr0, hr0id⟩ := h
      rcases List.mem_cons.mp hr0 with h' | h'
      · exact absurd (h' ▸ hr0id) hid
      · simp only [setRoom, if_neg hid, List.mem_cons]
        exact Or.inr (ih ⟨r0, h', hr0id⟩)

theorem setRoom_map_id (rooms : List Room) (rid : String) (room' : Room)
    (h : room'.id = rid) :
    (setRoom rooms rid room').map Room.id = rooms.map Room.id := by
  induction rooms with
  | nil => simp [setRoom]
  | cons r rest ih =>
    by_cases hid : r.id = rid
    · simp [setRoom, hid, h]
    · simp [setRoom, hid, ih]

theorem getRoom_mem (rooms : List Room) (rid : String) (r : Room)
    (h : getRoom rooms rid = some r) : r ∈ rooms ∧ r.id = rid := by
  unfold getRoom at h
  refine ⟨List.mem_of_find?_eq_some h, ?_⟩
  have := List.find?_some h
  simpa using this

theorem getRoom_none (rooms : List Room) (rid : String)
    (h : getRoom rooms rid = none) : ∀ r ∈ rooms, r.id ≠ rid := by
  intro r hr
  unfold getRoom at h
  have := List.find?_eq_none.mp h r hr
  simpa using this

theorem findRoomByUserId_mem (rooms : List Room) (u : String) (r : Room) (role : Role)
    (h : findRoomByUserId rooms u = some (r, role)) : r ∈ rooms := by
  induction rooms with
  | nil => simp [findRoomByUserId] at h
  | cons r0 rest ih =>
    simp only [findRoomByUserId] at h
    split_ifs at h with h1 h2
    · simp only [Option.some.injEq, Prod.mk.injEq] at h
      exact h.1 ▸ List.mem_cons_self _ _
    · simp only [Option.some.injEq, Prod.mk.injEq] at h
      exact h.1 ▸ List.mem_cons_self _ _
    · exact List.mem_cons_of_mem _ (ih h)

theorem findRoomByUserId_host (rooms : List Room) (u : String) (r : Room)
    (h : findRoomByUserId rooms u = some (r, Role.host)) : r.hostUserId = u := by
  induction rooms with
  | nil => simp [findRoomByUserId] at h
  | cons r0 rest ih =>
    simp only [findRoomByUserId] at h
    split_ifs at h with h1 h2
    · simp only [Option.some.injEq, Prod.mk.injEq] at h
      exact h.1 ▸ h1
    · simp at h
    · exact ih h

theorem findRoomByUserId_client (rooms : List Room) (u : String) (r : Room)
    (h : findRoomByUserId rooms u = some (r, Role.client)) : r.clientUserId = some u := by
  induction rooms with
  | nil => simp [findRoomByUserId] at h
  | cons r0 rest ih =>
    simp only [findRoomByUserId] at h
    split_ifs at h with h1 h2
    · simp at h
    · simp only [Option.some.injEq, Prod.mk.injEq] at h
      exact h.1 ▸ h2
    · exact ih h

theorem findRoomByUserId_none (rooms : List Room) (u : String)
    (h : findRoomByUserId rooms u = none) :
    ∀ r ∈ rooms, r.hostUserId ≠ u ∧ r.clientUserId ≠ some u := by
  induction rooms with
  | nil => simp
  | cons r0 rest ih =>
    simp only [findRoomByUserId] at h
    split_ifs at h with h1 h2
    intro r hr
    rcases List.mem_cons.mp hr with h' | h'
    · exact h' ▸ ⟨h1, h2⟩
    · exact ih h r h'

theorem mem_removeSocketFromRooms (rooms : List Room) (sid : String) (r'' : Room)
    (h : r'' ∈ (removeSocketFromRooms rooms sid).1) :
    r'' ∈ rooms ∨ ∃ r ∈ rooms, ∃ role, r'' = clearSocket r role := by
  induction rooms with
  | nil => simp [removeSocketFromRooms] at h
  | cons r rest ih =>
    simp only [removeSocketFromRooms] at h
    split_ifs at h with h1 h2
    · rcases List.mem_cons.mp h with h' | h'
      · exact Or.inr ⟨r, List.mem_cons_self _ _, Role.host, h'⟩
      · exact Or.inl (List.mem_cons_of_mem _ h')
    · rcases List.mem_cons.mp h with h' | h'
      · exact Or.inr ⟨r, List.mem_cons_self _ _, Role.client, h'⟩
      · exact Or.inl (List.mem_cons_of_mem _ h')
    · simp only [List.mem_cons] at h
      rcases h with h' | h'
      · exact Or.inl (h' ▸ List.mem_cons_self _ _)
      · rcases ih h' with h'' | ⟨r0, hr0, role, hrole⟩
        · exact Or.inl (List.mem_cons_of_mem _ h'')
        · exact Or.inr ⟨r0, List.mem_cons_of_mem _ hr0, role, hrole⟩

/-! Negotiation-serialization lemmas (claim C6). -/

/-- The openRounds history counter always mirrors the isNegotiating flag. -/
def NegInv (st : NegState) : Prop :=
  st.openRounds = (if st.isNegotiating then 1 else 0)

theorem negInv_negotiateAsClient (role : Option Role) (st : NegState)
    (h : NegInv st) : NegInv (negotiateAsClient role st) := by
  unfold NegInv negotiateAsClient at *
  split_ifs at * <;> simp_all

theorem negInv_negRoundComplete (role : Option Role) (st : NegState)
    (h : NegInv st) : NegInv (negRoundComplete role st) := by
  unfold NegInv negRoundComplete negotiateAsClient at *
  by_cases hq : st.hasQueuedRenegotiation <;> split_ifs at * <;> simp_all

theorem negInv_negExec (evs : List NegEvent) (st : NegState) (h : NegInv st) :
    NegInv (negExec st evs) := by
  induction evs generalizing st with
  | nil => exact h
  | cons e rest ih =>
    cases e with
    | request role => exact ih _ (negInv_negotiateAsClient role st h)
    | complete role => exact ih _ (negInv_negRoundComplete role st h)

theorem applyRequests_inflight (n : Nat) (st : NegState)
    (h : st.isNegotiating = true) :
    applyRequests (n + 1) st = { st with hasQueuedRenegotiation := true } := by
  induction n generalizing st with
  | zero =>
    simp [applyRequests, negotiateAsClient, h]
  | succ m ih =>
    have hstep : negotiateAsClient (some Role.client) st =
        { st with hasQueuedRenegotiation := true } := by
      simp [negotiateAsClient, h]
    calc applyRequests (m + 2) st
        = applyRequests (m + 1) (negotiateAsClient (some Role.client) st) := rfl
      _ = { st with hasQueuedRenegotiation := true } := by
          rw [hstep]
          have hrec := ih { st with hasQueuedRenegotiation := true } (by simpa using h)
          simpa using hrec

/-! ICE-candidate buffering lemmas (claim C7). -/

theorem candidateAttempts_map_attempt (cs : List String) :
    candidateAttempts (cs.map RtcEffect.attemptAddCandidate) = cs := by
  induction cs with
  | nil => rfl
  | cons c rest ih => simp [candidateAttempts, List.filterMap_cons] at ih ⊢; exact ih

theorem appliedCandidates_map_attempt (ok : String → Bool) (cs : List String) :
    appliedCandidates ok (cs.map RtcEffect.attemptAddCandidate) = cs.filter ok := by
  induction cs with
  | nil => rfl
  | cons c rest ih =>
    simp only [List.map_cons, appliedCandidates, List.filterMap_cons] at ih ⊢
    by_cases hc : ok c <;> simp [hc, List.filter_cons, ih]

theorem candidateAttempts_append (e1 e2 : List RtcEffect) :
    candidateAttempts (e1 ++ e2) = candidateAttempts e1 ++ candidateAttempts e2 := by
  simp [candidateAttempts]

theorem appliedCandidates_append (ok : String → Bool) (e1 e2 : List RtcEffect) :
    appliedCandidates ok (e1 ++ e2) =
      appliedCandidates ok e1 ++ appliedCandidates ok e2 := by
  simp [appliedCandidates]

theorem candidateAttempts_setRemote (k s : String) (effs : List RtcEffect) :
    candidateAttempts (RtcEffect.setRemoteDescription k s :: effs) =
      candidateAttempts effs := by
  simp [candidateAttempts, List.filterMap_cons]

theorem appliedCandidates_setRemote (ok : String → Bool) (k s : String)
    (effs : List RtcEffect) :
    appliedCandidates ok (RtcEffect.setRemoteDescription k s :: effs) =
      appliedCandidates ok effs := by
  simp [appliedCandidates, List.filterMap_cons]

theorem candidateAttempts_sendAnswer (s : String) :
    candidateAttempts [RtcEffect.sendAnswer s] = [] := rfl

theorem appliedCandidates_sendAnswer (ok : String → Bool) (s : String) :
    appliedCandidates ok [RtcEffect.sendAnswer s] = [] := rfl

theorem deliverCandidates_buffers (st : RtcSignalingState) (cs : List String)
    (h : st.remoteDescriptionSet = false) :
    (deliverCandidates st cs).1.pendingIceCandidates = st.pendingIceCandidates ++ cs ∧
    (deliverCandidates st cs).1.remoteDescriptionSet = false ∧
    (deliverCandidates st cs).2 = [] := by
  induction cs generalizing st with
  | nil => simp [deliverCandidates, h]
  | cons c rest ih =>
    have hstep : handleSignal st (WSignal.iceCandidate c) "" =
        ({ st with pendingIceCandidates := st.pendingIceCandidates ++ [c] }, []) := by
      simp [handleSignal, h]
    have ih' := ih { st with pendingIceCandidates := st.pendingIceCandidates ++ [c] }
      (by simpa using h)
    simp only [deliverCandidates, hstep] at *
    refine ⟨?_, ih'.2.1, by simp [ih'.2.2]⟩
    rw [ih'.1]
    simp

/-- Claim C6: per endpoint, at most one offer/answer negotiation round is ever
in flight at any time (the round-start counter openRounds never exceeds 1 in
any reachable state), and for every N greater or equal 1 calls to
negotiateAsClient that arrive while a round is in flight, exactly one
follow-up round is issued immediately after the in-flight round completes:
the N requests collapse into a single recorded flag, the completion starts
exactly one new round (roundsStarted rises by exactly 1), the flag is cleared,
and the follow-up round's own completion starts no further round. -/
theorem negotiation_at_most_one_round_and_coalescing :
    (∀ evs : List NegEvent, (negExec negInitial evs).openRounds ≤ 1) ∧
    (∀ (st : NegState) (n : Nat), st.isNegotiating = true →
      st.hasQueuedRenegotiation = false →
      (applyRequests (n + 1) st).roundsStarted = st.roundsStarted ∧
      (applyRequests (n + 1) st).isNegotiating = true ∧
      (applyRequests (n + 1) st).hasQueuedRenegotiation = true ∧
      (negRoundComplete (some Role.client) (applyRequests (n + 1) st)).roundsStarted =
        st.roundsStarted + 1 ∧
      (negRoundComplete (some Role.client)
          (applyRequests (n + 1) st)).hasQueuedRenegotiation = false ∧
      (negRoundComplete (some Role.client) (negRoundComplete (some Role.client)
          (applyRequests (n + 1) st))).roundsStarted = st.roundsStarted + 1) := by
  constructor
  · intro evs
    have h := negInv_negExec evs negInitial rfl
    unfold NegInv at h
    rw [h]
    split_ifs <;> simp
  · intro st n hneg hq
    rw [applyRequests_inflight n st hneg]
    simp [negRoundComplete, negotiateAsClient, hneg]

/-- Witness for C6 at a concrete in-flight state: three requests during one
round, then two completions. -/
theorem negotiation_at_most_one_round_and_coalescing_witness :
    (negExec negInitial [NegEvent.request (some Role.client)]).openRounds ≤ 1 ∧
    ((applyRequests 3 ⟨true, false, 5, 1⟩).roundsStarted = 5 ∧
      (applyRequests 3 ⟨true, false, 5, 1⟩).isNegotiating = true ∧
      (applyRequests 3 ⟨true, false, 5, 1⟩).hasQueuedRenegotiation = true ∧
      (negRoundComplete (some Role.client) (applyRequests 3 ⟨true, false, 5, 1⟩)).roundsStarted =
        5 + 1 ∧
      (negRoundComplete (some Role.client)
          (applyRequests 3 ⟨true, false, 5, 1⟩)).hasQueuedRenegotiation = false ∧
      (negRoundComplete (some Role.client) (negRoundComplete (some Role.client)
          (applyRequests 3 ⟨true, false, 5, 1⟩))).roundsStarted = 5 + 1) :=
  ⟨negotiation_at_most_one_round_and_coalescing.1 [NegEvent.request (some Role.client)],
    negotiation_at_most_one_round_and_coalescing.2 ⟨true, false, 5, 1⟩ 2 rfl rfl⟩

/-- Claim C7: ICE candidates received by handleSignal before a remote
description is set are appended to the pending buffer in arrival order (with
no application attempted); when a remote description (offer or answer) is
applied, the buffered candidates are attempted in that original order, the
ones that individually fail are dropped without aborting the flush (exactly
the accepted ones are applied, in order), and afterwards the buffer is
empty. -/
theorem ice_candidates_buffered_and_flushed_in_order :
    (∀ (st : RtcSignalingState) (cs : List String), st.remoteDescriptionSet = false →
      (deliverCandidates st cs).1.pendingIceCandidates = st.pendingIceCandidates ++ cs ∧
      (deliverCandidates st cs).2 = []) ∧
    (∀ (st : RtcSignalingState) (sdp answerSdp : String) (ok : String → Bool),
      candidateAttempts (handleSignal st (WSignal.offer sdp) answerSdp).2 =
        st.pendingIceCandidates ∧
      appliedCandidates ok (handleSignal st (WSignal.offer sdp) answerSdp).2 =
        st.pendingIceCandidates.filter ok ∧
      (handleSignal st (WSignal.offer sdp) answerSdp).1.pendingIceCandidates = [] ∧
      candidateAttempts (handleSignal st (WSignal.answer sdp) answerSdp).2 =
        st.pendingIceCandidates ∧
      appliedCandidates ok (handleSignal st (WSignal.answer sdp) answerSdp).2 =
        st.pendingIceCandidates.filter ok ∧
      (handleSignal st (WSignal.answer sdp) answerSdp).1.pendingIceCandidates = []) := by
  constructor
  · intro st cs h
    exact ⟨(deliverCandidates_buffers st cs h).1, (deliverCandidates_buffers st cs h).2.2⟩
  · intro st sdp answerSdp ok
    have hoff : handleSignal st (WSignal.offer sdp) answerSdp =
        ({ remoteDescriptionSet := true, pendingIceCandidates := [] },
          RtcEffect.setRemoteDescription "offer" sdp ::
            (st.pendingIceCandidates.map RtcEffect.attemptAddCandidate ++
              [RtcEffect.sendAnswer answerSdp])) := rfl
    have hans : handleSignal st (WSignal.answer sdp) answerSdp =
        ({ remoteDescriptionSet := true, pendingIceCandidates := [] },
          RtcEffect.setRemoteDescription "answer" sdp ::
            st.pendingIceCandidates.map RtcEffect.attemptAddCandidate) := rfl
    rw [hoff, hans]
    refine ⟨?_, ?_, rfl, ?_, ?_, rfl⟩
    · rw [candidateAttempts_setRemote, candidateAttempts_append,
        candidateAttempts_map_attempt, candidateAttempts_sendAnswer, List.append_nil]
    · rw [appliedCandidates_setRemote, appliedCandidates_append,
        appliedCandidates_map_attempt, appliedCandidates_sendAnswer, List.append_nil]
    · rw [candidateAttempts_setRemote, candidateAttempts_map_attempt]
    · rw [appliedCandidates_setRemote, appliedCandidates_map_attempt]

/-- Witness for C7 at a concrete buffer: two candidates buffered before any
remote description, then an offer flushes them with the second one failing. -/
theorem ice_candidates_buffered_and_flushed_in_order_witness :
    ((deliverCandidates ⟨false, []⟩ ["cand-a", "cand-b"]).1.pendingIceCandidates =
        [] ++ ["cand-a", "cand-b"] ∧
      (deliverCandidates ⟨false, []⟩ ["cand-a", "cand-b"]).2 = []) ∧
    (candidateAttempts
        (handleSignal ⟨false, ["cand-a", "cand-b"]⟩ (WSignal.offer "sdp-offer") "sdp-ans").2 =
      ["cand-a", "cand-b"] ∧
      appliedCandidates (fun c => c == "cand-a")
          (handleSignal ⟨false, ["cand-a", "cand-b"]⟩ (WSignal.offer "sdp-offer") "sdp-ans").2 =
        (["cand-a", "cand-b"].filter (fun c => c == "cand-a"))) :=
  ⟨ice_candidates_buffered_and_flushed_in_order.1 ⟨false, []⟩ ["cand-a", "cand-b"] rfl,
    (ice_candidates_buffered_and_flushed_in_order.2 ⟨false, ["cand-a", "cand-b"]⟩
        "sdp-offer" "sdp-ans" (fun c => c == "cand-a")).1,
    (ice_candidates_buffered_and_flushed_in_order.2 ⟨false, ["cand-a", "cand-b"]⟩
        "sdp-offer" "sdp-ans" (fun c => c == "cand-a")).2.1⟩

/-- Claim C8: an inbound control-channel message whose senderUserId does not
equal the room's recorded hostUserId (or arriving when no host identity is
known) produces no side effect at all: no mouse dispatch, no scroll, no
remote-media command. -/
theorem control_message_nonhost_no_effect (role : Option Role) (parsed : JVal)
    (hostUserId : Option String) (innerWidth innerHeight : Rat)
    (h : ∀ hu, hostUserId = some hu → senderUserIdOf parsed ≠ some hu) :
    handleControlMessage role (RawData.parsed parsed) hostUserId
      innerWidth innerHeight = [] := by
  unfold handleControlMessage
  split_ifs with h1
  · rfl
  · dsimp only
    by_cases h2 : isInboundControlMessage parsed
    · simp only [h2, not_true, if_false, Bool.not_eq_true]
      cases hostUserId with
      | none => simp
      | some hu => simp [if_pos (h hu rfl)]
    · simp [h2]

/-- Witness for C8: a schema-valid click message from a non-host sender is
dropped. -/
theorem control_message_nonhost_no_effect_witness :
    handleControlMessage (some Role.client)
      (RawData.parsed (JVal.jobj
        [("type", JVal.jstr "click"), ("senderUserId", JVal.jstr "evil-user-00001"),
         ("x", JVal.jnum (1 / 2)), ("y", JVal.jnum (1 / 2)), ("button", JVal.jnum 0)]))
      (some "host-user-00001") 1920 1080 = [] :=
  control_message_nonhost_no_effect (some Role.client) _ (some "host-user-00001") 1920 1080
    (by intro hu hh; injection hh with hh; subst hh; decide)

/-- Claim C10: on an endpoint whose current role is not client (host or no
role at all), handleControlMessage is a complete no-op for every inbound
data-channel message, even a well-formed one whose sender is the host. -/
theorem control_message_noop_when_not_client (role : Option Role) (raw : RawData)
    (hostUserId : Option String) (innerWidth innerHeight : Rat)
    (h : role ≠ some Role.client) :
    handleControlMessage role raw hostUserId innerWidth innerHeight = [] := by
  simp [handleControlMessage, h]

/-- Witness for C10: a well-formed scroll message whose sender matches the
host identity still does nothing on the host endpoint itself. -/
theorem control_message_noop_when_not_client_witness :
    handleControlMessage (some Role.host)
      (RawData.parsed (JVal.jobj
        [("type", JVal.jstr "scroll"), ("senderUserId", JVal.jstr "host-user-00001"),
         ("deltaX", JVal.jnum 3), ("deltaY", JVal.jnum 4)]))
      (some "host-user-00001") 1920 1080 = [] :=
  control_message_noop_when_not_client (some Role.host) _ (some "host-user-00001") 1920 1080
    (by decide)

theorem getRoom_setRoom_self (rooms : List Room) (rid : String) (room' : Room)
    (hid : room'.id = rid) (hex : ∃ r ∈ rooms, r.id = rid) :
    getRoom (setRoom rooms rid room') rid = some room' := by
  induction rooms with
  | nil => simp at hex
  | cons r rest ih =>
    by_cases h : r.id = rid
    · simp [setRoom, h, getRoom, List.find?_cons, hid]
    · obtain ⟨r0, hr0, hr0id⟩ := hex
      rcases List.mem_cons.mp hr0 with h' | h'
      · exact absurd (h' ▸ hr0id) h
      · simp only [setRoom, if_neg h, getRoom]
        rw [List.find?_cons_of_neg _ (by simpa using h)]
        exact ih ⟨r0, h', hr0id⟩

/-- Claim C3 (amended): the identify handler binds the connection identity to
the payload's userId on every successful (pattern-valid) identify, whatever
was bound before; the binding therefore equals the userId of the most recent
successful identify, and a second identify with a different userId does move
it. -/
theorem identify_binds_last_userId (st : ServerState) (sid userId : String)
    (h : isUserId userId = true) :
    assocLookup (step st (GEvent.identify sid userId)).1.sockets sid = some userId := by
  have hset : assocLookup (assocSet st.sockets sid userId) sid = some userId := by
    rw [assocLookup_assocSet]; simp
  simp only [step]
  unfold handleIdentify
  rw [if_neg (by simp [h])]
  dsimp only
  cases hfind : findRoomByUserId st.rooms userId with
  | none => simpa using hset
  | some match0 =>
    obtain ⟨room, role⟩ := match0
    simpa [restoreSession] using hset

/-- Counterexample to claim C3 as stated: the same connection identifies
successfully twice with different user ids, and the binding moves to the
second one. -/
theorem identify_rebinding_counterexample :
    (step initialState (GEvent.identify "sock-1" "alpha-user-0001")).2 =
        [ServerEmit.identifyOkTo "sock-1" false] ∧
    assocLookup (step initialState (GEvent.identify "sock-1" "alpha-user-0001")).1.sockets
        "sock-1" = some "alpha-user-0001" ∧
    (step (step initialState (GEvent.identify "sock-1" "alpha-user-0001")).1
        (GEvent.identify "sock-1" "bravo-user-0002")).2 =
        [ServerEmit.identifyOkTo "sock-1" false] ∧
    assocLookup (step (step initialState (GEvent.identify "sock-1" "alpha-user-0001")).1
        (GEvent.identify "sock-1" "bravo-user-0002")).1.sockets "sock-1" =
      some "bravo-user-0002" ∧
    ("bravo-user-0002" : String) ≠ "alpha-user-0001" := by
  decide

/-- Witness for the amended C3 at a concrete already-bound connection. -/
theorem identify_binds_last_userId_witness :
    assocLookup (step { rooms := [], sockets := [("sock-1", "alpha-user-0001")] }
        (GEvent.identify "sock-1" "bravo-user-0002")).1.sockets "sock-1" =
      some "bravo-user-0002" :=
  identify_binds_last_userId { rooms := [], sockets := [("sock-1", "alpha-user-0001")] }
    "sock-1" "bravo-user-0002" (by decide)

/-- Claim C5: a webrtc:signal event from a connection whose socket id is not
the registered socket id for the caller's role (evaluated on the normalized
room) is answered with the stale-socket error and relays nothing to the peer,
even though the caller's identity does resolve to a role in the room. -/
theorem stale_socket_signal_rejected (st : ServerState) (sid roomId userId : String)
    (signal : WSignal) (room0 : Room) (role : Role)
    (hpayload : isRoomId roomId = true) (hshape : signalShapeOk signal = true)
    (hident : assocLookup st.sockets sid = some userId)
    (hroom : getRoom st.rooms roomId = some room0)
    (hrole : roleOfUserInRoom (normalizeRoomState room0) userId = some role)
    (hstale : isCurrentSocketForRole (normalizeRoomState room0) role sid = false) :
    (step st (GEvent.webrtcSignal sid roomId signal)).2 =
      [ServerEmit.errorTo sid "Stale socket signaling rejected."] ∧
    (∀ target fromUser, ServerEmit.webrtcSignalTo target fromUser ∉
      (step st (GEvent.webrtcSignal sid roomId signal)).2) := by
  have hmain : (step st (GEvent.webrtcSignal sid roomId signal)).2 =
      [ServerEmit.errorTo sid "Stale socket signaling rejected."] := by
    have hstep : step st (GEvent.webrtcSignal sid roomId signal) =
        handleWebRtcSignal st sid roomId signal := rfl
    rw [hstep]
    unfold handleWebRtcSignal
    rw [if_neg (by simp [hpayload, hshape])]
    rw [hident]
    dsimp only
    rw [hroom]
    dsimp only
    rw [hrole]
    dsimp only
    rw [if_pos (by simp [hstale])]
  refine ⟨hmain, ?_⟩
  intro target fromUser
  rw [hmain]
  simp

/-- Witness for C5: the host's identity resolves, but the event comes from a
socket superseded by a reconnect. -/
theorem stale_socket_signal_rejected_witness :
    (step
        ⟨[⟨"482913", "host-user-00001", none, some "sock-9", none, false, false⟩],
          [("sock-1", "host-user-00001")]⟩
        (GEvent.webrtcSignal "sock-1" "482913" (WSignal.offer "v=0"))).2 =
      [ServerEmit.errorTo "sock-1" "Stale socket signaling rejected."] :=
  (stale_socket_signal_rejected _ "sock-1" "482913" "host-user-00001"
    (WSignal.offer "v=0")
    ⟨"482913", "host-user-00001", none, some "sock-9", none, false, false⟩
    Role.host (by decide) (by decide) (by decide) (by decide) (by decide) (by decide)).1

theorem emitRoomUpdate_shape (r : Room) (e : ServerEmit) (h : e ∈ emitRoomUpdate r) :
    ∃ s, e = ServerEmit.roomUpdateTo s r.id := by
  unfold emitRoomUpdate at h
  cases hhs : r.hostSocketId <;> cases hcs : r.clientSocketId <;>
    rw [hhs, hcs] at h <;> simp at h <;>
    first
      | exact ⟨_, h⟩
      | rcases h with h | h <;> exact ⟨_, h⟩

/-- Claim C9: when camera:request from the connection currently registered as
the room's host finds a registered client socket that does not resolve to a
live identified socket matching clientUserId (and differing from hostUserId),
the client socket binding is cleared, both activity flags are reset to false,
and the caller gets an error while nothing is forwarded to the client. -/
theorem camera_request_stale_client_cleared (st : ServerState)
    (sid roomId userId cs : String) (room0 : Room)
    (hpayload : isRoomId roomId = true)
    (hident : assocLookup st.sockets sid = some userId)
    (hroom : getRoom st.rooms roomId = some room0)
    (hauth : canUserControlRoom (normalizeRoomState room0) userId = true)
    (hhostsock : (normalizeRoomState room0).hostSocketId = some sid)
    (hclientsock : (normalizeRoomState room0).clientSocketId = some cs)
    (hfail : (normalizeRoomState room0).clientUserId.isNone ∨
      (assocLookup st.sockets cs).isNone ∨
      assocLookup st.sockets cs ≠ (normalizeRoomState room0).clientUserId ∨
      assocLookup st.sockets cs = some (normalizeRoomState room0).hostUserId) :
    (∃ rc, getRoom (step st (GEvent.cameraRequest sid roomId)).1.rooms roomId = some rc ∧
      rc.clientSocketId = none ∧ rc.controlActive = false ∧ rc.cameraActive = false) ∧
    ServerEmit.errorTo sid "No valid connected client available." ∈
      (step st (GEvent.cameraRequest sid roomId)).2 ∧
    (∀ t, ServerEmit.cameraRequestTo t ∉ (step st (GEvent.cameraRequest sid roomId)).2) := by
  have hstep : step st (GEvent.cameraRequest sid roomId) =
      handleCameraRequest st sid roomId := rfl
  have hid0 : room0.id = roomId := (getRoom_mem st.rooms roomId room0 hroom).2
  have hmem0 : room0 ∈ st.rooms := (getRoom_mem st.rooms roomId room0 hroom).1
  have hout : handleCameraRequest st sid roomId =
      (⟨setRoom (setRoom st.rooms roomId (normalizeRoomState room0)) roomId
          { normalizeRoomState room0 with
            clientSocketId := none
            clientUserId :=
              if (normalizeRoomState room0).clientUserId =
                  some (normalizeRoomState room0).hostUserId then none
              else (normalizeRoomState room0).clientUserId
            controlActive := false
            cameraActive := false }, st.sockets⟩,
        emitRoomUpdate
          { normalizeRoomState room0 with
            clientSocketId := none
            clientUserId :=
              if (normalizeRoomState room0).clientUserId =
                  some (normalizeRoomState room0).hostUserId then none
              else (normalizeRoomState room0).clientUserId
            controlActive := false
            cameraActive := false } ++
          [ServerEmit.errorTo sid "No valid connected client available."]) := by
    unfold handleCameraRequest
    rw [if_neg (by simp [hpayload])]
    rw [hident]
    dsimp only
    rw [hroom]
    dsimp only
    rw [if_neg (by simp [hauth, hhostsock])]
    rw [hclientsock]
    dsimp only
    rw [if_pos (by tauto)]
  rw [hstep, hout]
  set rc : Room :=
    { normalizeRoomState room0 with
      clientSocketId := none
      clientUserId :=
        if (normalizeRoomState room0).clientUserId =
            some (normalizeRoomState room0).hostUserId then none
        else (normalizeRoomState room0).clientUserId
      controlActive := false
      cameraActive := false } with hrc
  have hrcid : rc.id = roomId := by
    rw [hrc]
    simpa [normalizeRoomState_id] using hid0
  have hnormid : (normalizeRoomState room0).id = roomId := by
    simpa [normalizeRoomState_id] using hid0
  refine ⟨⟨rc, ?_, rfl, rfl, rfl⟩, ?_, ?_⟩
  · exact getRoom_setRoom_self _ roomId rc hrcid
      ⟨normalizeRoomState room0,
        mem_setRoom_self st.rooms roomId (normalizeRoomState room0) ⟨room0, hmem0, hid0⟩,
        hnormid⟩
  · simp
  · intro t hmem
    rcases List.mem_append.mp hmem with hin | hin
    · obtain ⟨s, hs⟩ := emitRoomUpdate_shape _ _ hin
      exact ServerEmit.noConfusion hs
    · simp at hin

/-- Witness for C9: the registered client socket is no longer connected, so
the lookup fails and the binding is cleared. -/
theorem camera_request_stale_client_cleared_witness :
    (∃ rc, getRoom (step
        ⟨[⟨"482913", "host-user-00001", some "client-user-00001", some "sock-1",
            some "sock-2", true, true⟩], [("sock-1", "host-user-00001")]⟩
        (GEvent.cameraRequest "sock-1" "482913")).1.rooms "482913" = some rc ∧
      rc.clientSocketId = none ∧ rc.controlActive = false ∧ rc.cameraActive = false) ∧
    ServerEmit.errorTo "sock-1" "No valid connected client available." ∈
      (step ⟨[⟨"482913", "host-user-00001", some "client-user-00001", some "sock-1",
          some "sock-2", true, true⟩], [("sock-1", "host-user-00001")]⟩
        (GEvent.cameraRequest "sock-1" "482913")).2 ∧
    (∀ t, ServerEmit.cameraRequestTo t ∉ (step
        ⟨[⟨"482913", "host-user-00001", some "client-user-00001", some "sock-1",
            some "sock-2", true, true⟩], [("sock-1", "host-user-00001")]⟩
        (GEvent.cameraRequest "sock-1" "482913")).2) :=
  camera_request_stale_client_cleared _ "sock-1" "482913" "host-user-00001" "sock-2"
    ⟨"482913", "host-user-00001", some "client-user-00001", some "sock-1",
      some "sock-2", true, true⟩
    (by decide) (by decide) (by decide) (by decide) (by decide) (by decide)
    (by right; left; decide)

/-- Claim C2 (amended): a join by a different identified user is rejected
with the specific reason, and the recorded client binding is untouched, when
the room's clientUserId is set to a different user AND a client socket is
currently registered; when the recorded client has no live socket the check
does not fire and the different user silently replaces the recorded client
(see the counterexample). -/
theorem join_rejected_only_when_client_socket_present (st : ServerState)
    (sid roomId userId v : String) (room0 : Room)
    (hpayload : isRoomId roomId = true)
    (hident : assocLookup st.sockets sid = some userId)
    (hroom : getRoom st.rooms roomId = some room0)
    (hnocross : attachedElsewhere (setRoom st.rooms roomId (normalizeRoomState room0))
      userId (normalizeRoomState room0).id = false)
    (hnothost : (normalizeRoomState room0).hostUserId ≠ userId)
    (hclient : (normalizeRoomState room0).clientUserId = some v)
    (hdiff : v ≠ userId)
    (hlive : (normalizeRoomState room0).clientSocketId.isSome = true) :
    (step st (GEvent.roomJoin sid roomId)).2 =
      [ServerEmit.errorTo sid "Room already has a different client."] ∧
    (∃ rc, getRoom (step st (GEvent.roomJoin sid roomId)).1.rooms roomId = some rc ∧
      rc.clientUserId = some v ∧
      rc.clientSocketId = (normalizeRoomState room0).clientSocketId) := by
  have hstep : step st (GEvent.roomJoin sid roomId) = handleRoomJoin st sid roomId := rfl
  have hid0 : room0.id = roomId := (getRoom_mem st.rooms roomId room0 hroom).2
  have hmem0 : room0 ∈ st.rooms := (getRoom_mem st.rooms roomId room0 hroom).1
  have hnormid : (normalizeRoomState room0).id = roomId := by
    simpa [normalizeRoomState_id] using hid0
  have hout : handleRoomJoin st sid roomId =
      (⟨setRoom st.rooms roomId (normalizeRoomState room0), st.sockets⟩,
        [ServerEmit.errorTo sid "Room already has a different client."]) := by
    unfold handleRoomJoin
    rw [if_neg (by simp [hpayload])]
    rw [hident]
    dsimp only
    rw [hroom]
    dsimp only
    rw [if_neg (by simp [hnocross])]
    rw [if_neg (by simpa [eq_comm] using hnothost)]
    rw [if_pos ⟨by simp [hclient], by simp [hclient, hdiff], hlive⟩]
  rw [hstep, hout]
  refine ⟨rfl, normalizeRoomState room0, ?_, hclient, rfl⟩
  exact getRoom_setRoom_self _ roomId _ hnormid ⟨room0, hmem0, hid0⟩

/-- Counterexample to claim C2 as stated: after the first client disconnects
(clientUserId still recorded, clientSocketId gone), a different identified
user joins the room successfully and the client binding is rebound to them. -/
theorem join_replaces_disconnected_client_counterexample :
    getRoom (execTrace initialState
        [GEvent.identify "s1" "host-user-00001", GEvent.roomCreate "s1" "482913",
         GEvent.identify "s2" "client-one-0001", GEvent.roomJoin "s2" "482913",
         GEvent.disconnect "s2", GEvent.identify "s3" "client-two-0002"]).rooms "482913" =
      some ⟨"482913", "host-user-00001", some "client-one-0001", some "s1", none,
        false, false⟩ ∧
    (step (execTrace initialState
        [GEvent.identify "s1" "host-user-00001", GEvent.roomCreate "s1" "482913",
         GEvent.identify "s2" "client-one-0001", GEvent.roomJoin "s2" "482913",
         GEvent.disconnect "s2", GEvent.identify "s3" "client-two-0002"])
        (GEvent.roomJoin "s3" "482913")).2 =
      [ServerEmit.roomJoinedTo "s3" "482913", ServerEmit.clientJoinedTo "s1",
       ServerEmit.roomUpdateTo "s1" "482913", ServerEmit.roomUpdateTo "s3" "482913"] ∧
    getRoom (step (execTrace initialState
        [GEvent.identify "s1" "host-user-00001", GEvent.roomCreate "s1" "482913",
         GEvent.identify "s2" "client-one-0001", GEvent.roomJoin "s2" "482913",
         GEvent.disconnect "s2", GEvent.identify "s3" "client-two-0002"])
        (GEvent.roomJoin "s3" "482913")).1.rooms "482913" =
      some ⟨"482913", "host-user-00001", some "client-two-0002", some "s1", some "s3",
        false, false⟩ := by
  decide

/-- Witness for the amended C2 at a concrete room with a live client socket. -/
theorem join_rejected_only_when_client_socket_present_witness :
    (step ⟨[⟨"482913", "host-user-00001", some "client-one-0001", some "s1", some "s2",
          false, false⟩], [("s3", "client-two-0002")]⟩
        (GEvent.roomJoin "s3" "482913")).2 =
      [ServerEmit.errorTo "s3" "Room already has a different client."] :=
  (join_rejected_only_when_client_socket_present _ "s3" "482913" "client-two-0002"
    "client-one-0001"
    ⟨"482913", "host-user-00001", some "client-one-0001", some "s1", some "s2",
      false, false⟩
    (by decide) (by decide) (by decide) (by decide) (by decide) (by decide) (by decide)
    (by decide)).1

/-! Preservation of the global invariant (claim C1). -/

theorem hostSockConsistent_of_fields (sockets : List (String × String)) (r r' : Room)
    (hh : r'.hostSocketId = r.hostSocketId) (hu : r'.hostUserId = r.hostUserId)
    (h : HostSockConsistent sockets r) : HostSockConsistent sockets r' := by
  intro s u hs hl
  rw [hh] at hs
  rw [hu]
  exact h s u hs hl

theorem normalizeRoomState_clientSocketId_of_clientUserId_none (r : Room)
    (h : (normalizeRoomState r).clientUserId = none) :
    (normalizeRoomState r).clientSocketId = none := by
  have hInv := (roomInv_normalizeRoomState r).2.1
  cases hcs : (normalizeRoomState r).clientSocketId with
  | none => rfl
  | some cs =>
    have := hInv (by simp [hcs])
    rw [h] at this
    simp at this

theorem attachSocket_client_hostSocketId (r : Room) (sid : String) :
    (attachSocket r Role.client sid).hostSocketId = r.hostSocketId := rfl

theorem attachSocket_client_hostUserId (r : Room) (sid : String) :
    (attachSocket r Role.client sid).hostUserId = r.hostUserId := rfl

theorem attachSocket_host_hostSocketId (r : Room) (sid : String) :
    (attachSocket r Role.host sid).hostSocketId = some sid := rfl

theorem attachSocket_host_hostUserId (r : Room) (sid : String) :
    (attachSocket r Role.host sid).hostUserId = r.hostUserId := rfl

/-- restoreSession preserves the global invariant: the re-attached room is
re-normalized, and when the role is host the caller's identity is the host
identity, keeping host socket bindings consistent. -/
theorem stateInv_restoreSession (st : ServerState) (sid userId : String) (room : Room)
    (role : Role) (hInv : StateInv st) (hmem : room ∈ st.rooms)
    (huser : assocLookup st.sockets sid = some userId)
    (hrole : role = Role.host → room.hostUserId = userId) :
    StateInv (restoreSession st sid room role).1 := by
  obtain ⟨hRooms, hCons, hNd⟩ := hInv
  unfold restoreSession
  dsimp only
  refine ⟨forall_mem_setRoom hRooms (roomInv_normalizeRoomState _), ?_, hNd⟩
  intro r'' hmem''
  rcases mem_setRoom _ _ _ _ hmem'' with h | h
  · subst h
    cases role with
    | host =>
      intro s u hs hl
      have hhs : (normalizeRoomState (attachSocket (normalizeRoomState room)
          Role.host sid)).hostSocketId = some sid := by
        rw [normalizeRoomState_hostSocketId, attachSocket_host_hostSocketId]
      have hhu : (normalizeRoomState (attachSocket (normalizeRoomState room)
          Role.host sid)).hostUserId = room.hostUserId := by
        rw [normalizeRoomState_hostUserId, attachSocket_host_hostUserId,
          normalizeRoomState_hostUserId]
      rw [hhs] at hs
      injection hs with hs
      subst hs
      rw [huser] at hl
      injection hl with hl
      rw [hhu, hrole rfl, hl]
    | client =>
      refine hostSockConsistent_of_fields st.sockets room _ ?_ ?_ (hCons room hmem)
      · rw [normalizeRoomState_hostSocketId, attachSocket_client_hostSocketId,
          normalizeRoomState_hostSocketId]
      · rw [normalizeRoomState_hostUserId, attachSocket_client_hostUserId,
          normalizeRoomState_hostUserId]
  · exact hCons r'' h

/-- Replacing a room by its normalization preserves the global invariant. -/
theorem stateInv_setRoom_normalize (st : ServerState) (rid : String) (room0 : Room)
    (hInv : StateInv st) (hmem : room0 ∈ st.rooms) :
    StateInv { st with rooms := setRoom st.rooms rid (normalizeRoomState room0) } := by
  obtain ⟨hRooms, hCons, hNd⟩ := hInv
  refine ⟨forall_mem_setRoom hRooms (roomInv_normalizeRoomState _), ?_, hNd⟩
  intro r'' hmem''
  rcases mem_setRoom _ _ _ _ hmem'' with h | h
  · subst h
    exact hostSockConsistent_of_fields st.sockets room0 _
      (normalizeRoomState_hostSocketId _) (normalizeRoomState_hostUserId _)
      (hCons room0 hmem)
  · exact hCons r'' h

theorem stateInv_identify (st : ServerState) (sid userId : String)
    (hInv : StateInv st)
    (hwf : assocLookup st.sockets sid = some userId ∨
      (assocLookup st.sockets sid = none ∧ ∀ r ∈ st.rooms, r.hostSocketId ≠ some sid)) :
    StateInv (handleIdentify st sid userId).1 := by
  obtain ⟨hRooms, hCons, hNd⟩ := hInv
  unfold handleIdentify
  by_cases hval : isUserId userId = true
  · rw [if_neg (by simp [hval])]
    dsimp only
    have hlook' : ∀ s, assocLookup (assocSet st.sockets sid userId) s =
        if sid = s then some userId else assocLookup st.sockets s := fun s =>
      assocLookup_assocSet st.sockets sid userId s
    have hNd' : ((assocSet st.sockets sid userId).map Prod.fst).Nodup :=
      nodup_keys_assocSet _ _ _ hNd
    have hCons' : ∀ r ∈ st.rooms, HostSockConsistent (assocSet st.sockets sid userId) r := by
      intro r hr s u hs hl
      rw [hlook' s] at hl
      by_cases hss : sid = s
      · cases hss
        rw [if_pos rfl] at hl
        cases hl
        rcases hwf with hw | ⟨_, hw⟩
        · exact hCons r hr sid userId hs hw
        · exact absurd hs (hw r hr)
      · rw [if_neg hss] at hl
        exact hCons r hr s u hs hl
    cases hfind : findRoomByUserId st.rooms userId with
    | none => exact ⟨hRooms, hCons', hNd'⟩
    | some pair =>
      obtain ⟨room, role⟩ := pair
      dsimp only
      refine stateInv_restoreSession ⟨st.rooms, assocSet st.sockets sid userId⟩ sid userId
        room role ⟨hRooms, hCons', hNd'⟩ (findRoomByUserId_mem _ _ _ _ hfind) ?_ ?_
      · rw [hlook' sid, if_pos rfl]
      · intro hr
        subst hr
        exact findRoomByUserId_host _ _ _ hfind
  · rw [if_pos (by simp [hval])]
    exact ⟨hRooms, hCons, hNd⟩

theorem stateInv_roomCreate (st : ServerState) (sid freshId : String)
    (hInv : StateInv st) : StateInv (handleRoomCreate st sid freshId).1 := by
  obtain ⟨hRooms, hCons, hNd⟩ := hInv
  unfold handleRoomCreate
  cases hlook : assocLookup st.sockets sid with
  | none => exact ⟨hRooms, hCons, hNd⟩
  | some userId =>
    dsimp only
    cases hfind : findRoomByUserId st.rooms userId with
    | none =>
      dsimp only
      split_ifs with hguard
      · refine ⟨?_, ?_, hNd⟩
        · intro r hr
          rcases List.mem_append.mp hr with h | h
          · exact hRooms r h
          · simp only [List.mem_singleton] at h
            subst h
            exact ⟨by simp, by simp, by simp⟩
        · intro r hr
          rcases List.mem_append.mp hr with h | h
          · exact hCons r h
          · simp only [List.mem_singleton] at h
            subst h
            intro s u hs hl
            injection hs with hs
            subst hs
            rw [hlook] at hl
            injection hl with hl
            exact hl.symm
      · exact ⟨hRooms, hCons, hNd⟩
    | some pair =>
      obtain ⟨room, role⟩ := pair
      cases role with
      | host =>
        dsimp only
        exact stateInv_restoreSession st sid userId room Role.host ⟨hRooms, hCons, hNd⟩
          (findRoomByUserId_mem _ _ _ _ hfind) hlook
          (fun _ => findRoomByUserId_host _ _ _ hfind)
      | client => exact ⟨hRooms, hCons, hNd⟩

theorem stateInv_setRoom_of (st : ServerState) (rid : String) (room' : Room)
    (hInv : StateInv st) (hroomInv : RoomInv room')
    (hcons : HostSockConsistent st.sockets room') :
    StateInv { st with rooms := setRoom st.rooms rid room' } :=
  ⟨forall_mem_setRoom hInv.1 hroomInv,
    fun r'' hm => (mem_setRoom _ _ _ _ hm).elim (fun h => h ▸ hcons) (hInv.2.1 r''),
    hInv.2.2⟩

theorem stateInv_roomJoin (st : ServerState) (sid roomId : String)
    (hInv : StateInv st) : StateInv (handleRoomJoin st sid roomId).1 := by
  obtain ⟨hRooms, hCons, hNd⟩ := hInv
  unfold handleRoomJoin
  by_cases hpay : isRoomId roomId = true
  case neg =>
    rw [if_pos (by simp [hpay])]
    exact ⟨hRooms, hCons, hNd⟩
  rw [if_neg (by simp [hpay])]
  cases hlook : assocLookup st.sockets sid with
  | none => exact ⟨hRooms, hCons, hNd⟩
  | some userId =>
    dsimp only
    cases hroom : getRoom st.rooms roomId with
    | none => exact ⟨hRooms, hCons, hNd⟩
    | some room0 =>
      dsimp only
      have hmem0 : room0 ∈ st.rooms := (getRoom_mem _ _ _ hroom).1
      have hid0 : room0.id = roomId := (getRoom_mem _ _ _ hroom).2
      have hInv1 : StateInv ⟨setRoom st.rooms roomId (normalizeRoomState room0), st.sockets⟩ :=
        stateInv_setRoom_normalize st roomId room0 ⟨hRooms, hCons, hNd⟩ hmem0
      have hmem1 : normalizeRoomState room0 ∈
          setRoom st.rooms roomId (normalizeRoomState room0) :=
        mem_setRoom_self st.rooms roomId (normalizeRoomState room0) ⟨room0, hmem0, hid0⟩
      split_ifs with hcross hhost hclient
      · exact hInv1
      · exact hInv1
      · exact hInv1
      · refine stateInv_setRoom_of ⟨setRoom st.rooms roomId (normalizeRoomState room0),
          st.sockets⟩ roomId _ hInv1 ⟨?_, ?_, ?_⟩ ?_
        · simpa using fun heq => hhost heq.symm
        · simp
        · intro hsome heq
          exact hhost (hInv1.2.1 _ hmem1 sid userId heq hlook).symm
        · exact hostSockConsistent_of_fields st.sockets (normalizeRoomState room0) _
            rfl rfl (hInv1.2.1 _ hmem1)

theorem stateInv_rejoinRoom (st : ServerState) (sid roomId : String) (role : Role)
    (hInv : StateInv st) : StateInv (handleRejoinRoom st sid roomId role).1 := by
  obtain ⟨hRooms, hCons, hNd⟩ := hInv
  unfold handleRejoinRoom
  by_cases hpay : isRoomId roomId = true
  case neg =>
    rw [if_pos (by simp [hpay])]
    exact ⟨hRooms, hCons, hNd⟩
  rw [if_neg (by simp [hpay])]
  cases hlook : assocLookup st.sockets sid with
  | none => exact ⟨hRooms, hCons, hNd⟩
  | some userId =>
    dsimp only
    cases hroom : getRoom st.rooms roomId with
    | none => exact ⟨hRooms, hCons, hNd⟩
    | some room0 =>
      dsimp only
      have hmem0 : room0 ∈ st.rooms := (getRoom_mem _ _ _ hroom).1
      have hid0 : room0.id = roomId := (getRoom_mem _ _ _ hroom).2
      have hInv1 : StateInv ⟨setRoom st.rooms roomId (normalizeRoomState room0), st.sockets⟩ :=
        stateInv_setRoom_normalize st roomId room0 ⟨hRooms, hCons, hNd⟩ hmem0
      have hmem1 : normalizeRoomState room0 ∈
          setRoom st.rooms roomId (normalizeRoomState room0) :=
        mem_setRoom_self st.rooms roomId (normalizeRoomState room0) ⟨room0, hmem0, hid0⟩
      cases role with
      | host =>
        dsimp only
        by_cases hne : (normalizeRoomState room0).hostUserId = userId
        · rw [if_neg (not_not_intro hne)]
          exact stateInv_restoreSession _ sid userId _ Role.host hInv1 hmem1 hlook
            (fun _ => hne)
        · rw [if_pos hne]
          exact hInv1
      | client =>
        dsimp only
        by_cases hishost : (normalizeRoomState room0).hostUserId = userId
        · rw [if_pos hishost]
          exact hInv1
        · rw [if_neg hishost]
          cases hcu : (normalizeRoomState room0).clientUserId with
          | some v =>
            dsimp only
            by_cases hvu : v = userId
            · rw [if_neg (not_not_intro hvu)]
              exact stateInv_restoreSession _ sid userId _ Role.client hInv1 hmem1 hlook
                (fun h => Role.noConfusion h)
            · rw [if_pos hvu]
              exact hInv1
          | none =>
            dsimp only
            have hcs : (normalizeRoomState room0).clientSocketId = none :=
              normalizeRoomState_clientSocketId_of_clientUserId_none room0 hcu
            have hInv2 : StateInv
                ⟨setRoom (setRoom st.rooms roomId (normalizeRoomState room0)) roomId
                  { normalizeRoomState room0 with clientUserId := some userId },
                 st.sockets⟩ := by
              refine stateInv_setRoom_of _ roomId _ hInv1 ⟨?_, ?_, ?_⟩ ?_
              · simpa using fun heq => hishost heq.symm
              · simp
              · intro hsome heq
                have heq' : (normalizeRoomState room0).hostSocketId =
                    (normalizeRoomState room0).clientSocketId := heq
                have hsome' : ((normalizeRoomState room0).hostSocketId).isSome = true := hsome
                rw [heq', hcs] at hsome'
                simp at hsome'
              · exact hostSockConsistent_of_fields st.sockets (normalizeRoomState room0) _
                  rfl rfl (hInv1.2.1 _ hmem1)
            have hmem2 : ({ normalizeRoomState room0 with clientUserId := some userId } : Room) ∈
                setRoom (setRoom st.rooms roomId (normalizeRoomState room0)) roomId
                  { normalizeRoomState room0 with clientUserId := some userId } := by
              refine mem_setRoom_self _ roomId _ ⟨normalizeRoomState room0, hmem1, ?_⟩
              simpa [normalizeRoomState_id] using hid0
            exact stateInv_restoreSession _ sid userId _ Role.client hInv2 hmem2 hlook
              (fun h => Role.noConfusion h)

theorem stateInv_webrtcSignal (st : ServerState) (sid roomId : String) (signal : WSignal)
    (hInv : StateInv st) : StateInv (handleWebRtcSignal st sid roomId signal).1 := by
  obtain ⟨hRooms, hCons, hNd⟩ := hInv
  unfold handleWebRtcSignal
  by_cases hpay : (isRoomId roomId = true ∧ signalShapeOk signal = true)
  case neg =>
    rw [if_pos hpay]
    exact ⟨hRooms, hCons, hNd⟩
  rw [if_neg (not_not_intro hpay)]
  cases hlook : assocLookup st.sockets sid with
  | none => exact ⟨hRooms, hCons, hNd⟩
  | some userId =>
    dsimp only
    cases hroom : getRoom st.rooms roomId with
    | none => exact ⟨hRooms, hCons, hNd⟩
    | some room0 =>
      dsimp only
      have hInv1 : StateInv ⟨setRoom st.rooms roomId (normalizeRoomState room0), st.sockets⟩ :=
        stateInv_setRoom_normalize st roomId room0 ⟨hRooms, hCons, hNd⟩
          (getRoom_mem _ _ _ hroom).1
      cases hrole : roleOfUserInRoom (normalizeRoomState room0) userId with
      | none => exact hInv1
      | some role =>
        dsimp only
        by_cases hcur : isCurrentSocketForRole (normalizeRoomState room0) role sid = true
        · rw [if_neg (not_not_intro hcur)]
          cases hpeer : roomPeerSocketId (normalizeRoomState room0) role with
          | none => exact hInv1
          | some target => exact hInv1
        · rw [if_pos hcur]
          exact hInv1

theorem stateInv_controlStatus (st : ServerState) (sid roomId : String) (active : Bool)
    (hInv : StateInv st) : StateInv (handleControlStatus st sid roomId active).1 := by
  obtain ⟨hRooms, hCons, hNd⟩ := hInv
  unfold handleControlStatus
  by_cases hpay : isRoomId roomId = true
  case neg =>
    rw [if_pos (by simp [hpay])]
    exact ⟨hRooms, hCons, hNd⟩
  rw [if_neg (by simp [hpay])]
  cases hlook : assocLookup st.sockets sid with
  | none => exact ⟨hRooms, hCons, hNd⟩
  | some userId =>
    dsimp only
    cases hroom : getRoom st.rooms roomId with
    | none => exact ⟨hRooms, hCons, hNd⟩
    | some room0 =>
      dsimp only
      have hmem0 : room0 ∈ st.rooms := (getRoom_mem _ _ _ hroom).1
      have hInv1 : StateInv ⟨setRoom st.rooms roomId (normalizeRoomState room0), st.sockets⟩ :=
        stateInv_setRoom_normalize st roomId room0 ⟨hRooms, hCons, hNd⟩ hmem0
      have hmem1 : normalizeRoomState room0 ∈
          setRoom st.rooms roomId (normalizeRoomState room0) :=
        mem_setRoom_self st.rooms roomId (normalizeRoomState room0)
          ⟨room0, hmem0, (getRoom_mem _ _ _ hroom).2⟩
      by_cases hauth : (canUserControlRoom (normalizeRoomState room0) userId = true ∧
          (normalizeRoomState room0).hostSocketId = some sid)
      · rw [if_neg (not_not_intro hauth)]
        exact stateInv_setRoom_of _ roomId _ hInv1 (roomInv_normalizeRoomState room0)
          (hostSockConsistent_of_fields st.sockets (normalizeRoomState room0) _
            rfl rfl (hInv1.2.1 _ hmem1))
      · rw [if_pos hauth]
        exact hInv1

theorem stateInv_cameraRequest (st : ServerState) (sid roomId : String)
    (hInv : StateInv st) : StateInv (handleCameraRequest st sid roomId).1 := by
  obtain ⟨hRooms, hCons, hNd⟩ := hInv
  unfold handleCameraRequest
  by_cases hpay : isRoomId roomId = true
  case neg =>
    rw [if_pos (by simp [hpay])]
    exact ⟨hRooms, hCons, hNd⟩
  rw [if_neg (by simp [hpay])]
  cases hlook : assocLookup st.sockets sid with
  | none => exact ⟨hRooms, hCons, hNd⟩
  | some userId =>
    dsimp only
    cases hroom : getRoom st.rooms roomId with
    | none => exact ⟨hRooms, hCons, hNd⟩
    | some room0 =>
      dsimp only
      have hmem0 : room0 ∈ st.rooms := (getRoom_mem _ _ _ hroom).1
      have hInv1 : StateInv ⟨setRoom st.rooms roomId (normalizeRoomState room0), st.sockets⟩ :=
        stateInv_setRoom_normalize st roomId room0 ⟨hRooms, hCons, hNd⟩ hmem0
      have hmem1 : normalizeRoomState room0 ∈
          setRoom st.rooms roomId (normalizeRoomState room0) :=
        mem_setRoom_self st.rooms roomId (normalizeRoomState room0)
          ⟨room0, hmem0, (getRoom_mem _ _ _ hroom).2⟩
      by_cases hauth : (canUserControlRoom (normalizeRoomState room0) userId = true ∧
          (normalizeRoomState room0).hostSocketId = some sid)
      case neg =>
        rw [if_pos hauth]
        exact hInv1
      rw [if_neg (not_not_intro hauth)]
      cases hcs : (normalizeRoomState room0).clientSocketId with
      | none => exact hInv1
      | some cs =>
        dsimp only
        split_ifs with hfail hcueq
        · refine stateInv_setRoom_of _ roomId _ hInv1 ⟨?_, ?_, ?_⟩ ?_
          · simp
          · simp
          · intro hsome heq
            have heq' : (normalizeRoomState room0).hostSocketId = none := heq
            have hsome' : ((normalizeRoomState room0).hostSocketId).isSome = true := hsome
            rw [heq'] at hsome'
            simp at hsome'
          · exact hostSockConsistent_of_fields st.sockets (normalizeRoomState room0) _
              rfl rfl (hInv1.2.1 _ hmem1)
        · refine stateInv_setRoom_of _ roomId _ hInv1 ⟨?_, ?_, ?_⟩ ?_
          · have := (roomInv_normalizeRoomState room0).1
            simpa using this
          · simp
          · intro hsome heq
            have heq' : (normalizeRoomState room0).hostSocketId = none := heq
            have hsome' : ((normalizeRoomState room0).hostSocketId).isSome = true := hsome
            rw [heq'] at hsome'
            simp at hsome'
          · exact hostSockConsistent_of_fields st.sockets (normalizeRoomState room0) _
              rfl rfl (hInv1.2.1 _ hmem1)
        · exact hInv1

theorem stateInv_cameraPermission (st : ServerState) (sid roomId : String) (granted : Bool)
    (hInv : StateInv st) : StateInv (handleCameraPermission st sid roomId granted).1 := by
  obtain ⟨hRooms, hCons, hNd⟩ := hInv
  unfold handleCameraPermission
  by_cases hpay : isRoomId roomId = true
  case neg =>
    rw [if_pos (by simp [hpay])]
    exact ⟨hRooms, hCons, hNd⟩
  rw [if_neg (by simp [hpay])]
  cases hlook : assocLookup st.sockets sid with
  | none => exact ⟨hRooms, hCons, hNd⟩
  | some userId =>
    dsimp only
    cases hroom : getRoom st.rooms roomId with
    | none => exact ⟨hRooms, hCons, hNd⟩
    | some room0 =>
      dsimp only
      have hmem0 : room0 ∈ st.rooms := (getRoom_mem _ _ _ hroom).1
      have hInv1 : StateInv ⟨setRoom st.rooms roomId (normalizeRoomState room0), st.sockets⟩ :=
        stateInv_setRoom_normalize st roomId room0 ⟨hRooms, hCons, hNd⟩ hmem0
      have hmem1 : normalizeRoomState room0 ∈
          setRoom st.rooms roomId (normalizeRoomState room0) :=
        mem_setRoom_self st.rooms roomId (normalizeRoomState room0)
          ⟨room0, hmem0, (getRoom_mem _ _ _ hroom).2⟩
      by_cases hauth : (canUserActAsClient (normalizeRoomState room0) userId = true ∧
          (normalizeRoomState room0).clientSocketId = some sid)
      case neg =>
        rw [if_pos hauth]
        exact hInv1
      rw [if_neg (not_not_intro hauth)]
      by_cases hgr : granted = true
      · rw [if_pos hgr]
        exact stateInv_setRoom_of _ roomId _ hInv1 (roomInv_normalizeRoomState room0)
          (hostSockConsistent_of_fields st.sockets (normalizeRoomState room0) _
            rfl rfl (hInv1.2.1 _ hmem1))
      · rw [if_neg hgr]
        exact stateInv_setRoom_of _ roomId _ hInv1 (roomInv_normalizeRoomState room0)
          (hostSockConsistent_of_fields st.sockets (normalizeRoomState room0) _
            rfl rfl (hInv1.2.1 _ hmem1))

theorem stateInv_cameraState (st : ServerState) (sid roomId : String) (active : Bool)
    (hInv : StateInv st) : StateInv (handleCameraState st sid roomId active).1 := by
  obtain ⟨hRooms, hCons, hNd⟩ := hInv
  unfold handleCameraState
  by_cases hpay : isRoomId roomId = true
  case neg =>
    rw [if_pos (by simp [hpay])]
    exact ⟨hRooms, hCons, hNd⟩
  rw [if_neg (by simp [hpay])]
  cases hlook : assocLookup st.sockets sid with
  | none => exact ⟨hRooms, hCons, hNd⟩
  | some userId =>
    dsimp only
    cases hroom : getRoom st.rooms roomId with
    | none => exact ⟨hRooms, hCons, hNd⟩
    | some room0 =>
      dsimp only
      have hmem0 : room0 ∈ st.rooms := (getRoom_mem _ _ _ hroom).1
      have hInv1 : StateInv ⟨setRoom st.rooms roomId (normalizeRoomState room0), st.sockets⟩ :=
        stateInv_setRoom_normalize st roomId room0 ⟨hRooms, hCons, hNd⟩ hmem0
      have hmem1 : normalizeRoomState room0 ∈
          setRoom st.rooms roomId (normalizeRoomState room0) :=
        mem_setRoom_self st.rooms roomId (normalizeRoomState room0)
          ⟨room0, hmem0, (getRoom_mem _ _ _ hroom).2⟩
      by_cases hauth : (canUserActAsClient (normalizeRoomState room0) userId = true ∧
          (normalizeRoomState room0).clientSocketId = some sid)
      case neg =>
        rw [if_pos hauth]
        exact hInv1
      rw [if_neg (not_not_intro hauth)]
      exact stateInv_setRoom_of _ roomId _ hInv1 (roomInv_normalizeRoomState room0)
        (hostSockConsistent_of_fields st.sockets (normalizeRoomState room0) _
          rfl rfl (hInv1.2.1 _ hmem1))

theorem stateInv_mediaKind (st : ServerState) (sid roomId streamId : String)
    (kind : StreamKind) (hInv : StateInv st) :
    StateInv (handleMediaKind st sid roomId streamId kind).1 := by
  obtain ⟨hRooms, hCons, hNd⟩ := hInv
  unfold handleMediaKind
  by_cases hpay : (isRoomId roomId = true ∧ 0 < streamId.length)
  case neg =>
    rw [if_pos hpay]
    exact ⟨hRooms, hCons, hNd⟩
  rw [if_neg (not_not_intro hpay)]
  cases hlook : assocLookup st.sockets sid with
  | none => exact ⟨hRooms, hCons, hNd⟩
  | some userId =>
    dsimp only
    cases hroom : getRoom st.rooms roomId with
    | none => exact ⟨hRooms, hCons, hNd⟩
    | some room0 =>
      dsimp only
      have hInv1 : StateInv ⟨setRoom st.rooms roomId (normalizeRoomState room0), st.sockets⟩ :=
        stateInv_setRoom_normalize st roomId room0 ⟨hRooms, hCons, hNd⟩
          (getRoom_mem _ _ _ hroom).1
      by_cases hauth : (canUserActAsClient (normalizeRoomState room0) userId = true ∧
          (normalizeRoomState room0).clientSocketId = some sid)
      case neg =>
        rw [if_pos hauth]
        exact hInv1
      rw [if_neg (not_not_intro hauth)]
      exact hInv1

theorem roomInv_clearSocket (r : Room) (role : Role) (h : RoomInv r) :
    RoomInv (clearSocket r role) := by
  obtain ⟨h1, h2, h3⟩ := h
  cases role with
  | host =>
    refine ⟨h1, h2, ?_⟩
    intro hsome
    simp [clearSocket] at hsome
  | client =>
    refine ⟨h1, ?_, ?_⟩
    · intro hsome
      simp [clearSocket] at hsome
    · intro hsome heq
      rw [show (clearSocket r Role.client).clientSocketId = none from rfl] at heq
      rw [show (clearSocket r Role.client).hostSocketId = r.hostSocketId from rfl] at heq hsome
      rw [heq] at hsome
      simp at hsome

theorem stateInv_disconnect (st : ServerState) (sid : String)
    (hInv : StateInv st) : StateInv (handleDisconnect st sid).1 := by
  obtain ⟨hRooms, hCons, hNd⟩ := hInv
  have hNd' : ((assocErase st.sockets sid).map Prod.fst).Nodup :=
    nodup_keys_assocErase _ _ hNd
  have hCons' : ∀ r'' ∈ (removeSocketFromRooms st.rooms sid).1,
      HostSockConsistent (assocErase st.sockets sid) r'' := by
    intro r'' hmem s u hs hl
    by_cases hss : s = sid
    · subst hss
      rw [assocLookup_assocErase_self st.sockets s hNd] at hl
      exact Option.noConfusion hl
    · rw [assocLookup_assocErase_ne st.sockets sid s hss] at hl
      rcases mem_removeSocketFromRooms st.rooms sid r'' hmem with h | ⟨r0, hr0, role, hrole⟩
      · exact hCons r'' h s u hs hl
      · cases role with
        | host =>
          rw [hrole] at hs
          simp [clearSocket] at hs
        | client =>
          subst hrole
          rw [show (clearSocket r0 Role.client).hostSocketId = r0.hostSocketId from rfl] at hs
          rw [show (clearSocket r0 Role.client).hostUserId = r0.hostUserId from rfl]
          exact hCons r0 hr0 s u hs hl
  have hRooms' : ∀ r'' ∈ (removeSocketFromRooms st.rooms sid).1, RoomInv r'' := by
    intro r'' hmem
    rcases mem_removeSocketFromRooms st.rooms sid r'' hmem with h | ⟨r0, hr0, role, hrole⟩
    · exact hRooms r'' h
    · exact hrole ▸ roomInv_clearSocket r0 role (hRooms r0 hr0)
  unfold handleDisconnect
  dsimp only
  cases hres : (removeSocketFromRooms st.rooms sid).2 with
  | none => exact ⟨hRooms', hCons', hNd'⟩
  | some pair =>
    obtain ⟨room, role⟩ := pair
    exact ⟨hRooms', hCons', hNd'⟩

/-- Claim C1 (amended): after every single mutating gateway operation, every
room in the registry satisfies invariants 1-3 (together with the auxiliary
socket-table consistency that makes them inductive), PROVIDED the operation is
well-formed: an identify either re-binds the same user or happens on a fresh
connection id.  The code accepts a second identify with a different userId,
and a host connection that re-identifies and then joins its own room makes
hostSocketId equal clientSocketId, transiently violating invariant 3 until the
next normalization (see the counterexample).  Unconditionally, whenever
normalization has to clear part of the client binding, it resets both
controlActive and cameraActive to false. -/
theorem gateway_step_preserves_invariants (st : ServerState) (e : GEvent) :
    (StateInv st → WFEvent st e → StateInv (step st e).1) ∧
    (∀ r : Room,
      ((normalizeRoomState r).clientUserId ≠ r.clientUserId ∨
       (normalizeRoomState r).clientSocketId ≠ r.clientSocketId) →
      (normalizeRoomState r).controlActive = false ∧
        (normalizeRoomState r).cameraActive = false) := by
  refine ⟨?_, normalizeRoomState_flags⟩
  intro hInv hwf
  cases e with
  | identify sid userId => exact stateInv_identify st sid userId hInv hwf
  | roomCreate sid freshId => exact stateInv_roomCreate st sid freshId hInv
  | roomJoin sid roomId => exact stateInv_roomJoin st sid roomId hInv
  | rejoinRoom sid roomId role => exact stateInv_rejoinRoom st sid roomId role hInv
  | webrtcSignal sid roomId signal => exact stateInv_webrtcSignal st sid roomId signal hInv
  | controlStatus sid roomId active => exact stateInv_controlStatus st sid roomId active hInv
  | cameraRequest sid roomId => exact stateInv_cameraRequest st sid roomId hInv
  | cameraPermission sid roomId granted =>
    exact stateInv_cameraPermission st sid roomId granted hInv
  | cameraState sid roomId active => exact stateInv_cameraState st sid roomId active hInv
  | mediaKind sid roomId streamId kind =>
    exact stateInv_mediaKind st sid roomId streamId kind hInv
  | disconnect sid => exact stateInv_disconnect st sid hInv

/-- Witness for the amended C1: one well-formed identify on the empty server,
and the flag-reset clause at a concrete degenerate room. -/
theorem gateway_step_preserves_invariants_witness :
    StateInv (step initialState (GEvent.identify "sock-1" "host-user-00001")).1 ∧
    ((normalizeRoomState ⟨"482913", "host-user-00001", some "host-user-00001",
        some "s1", some "s1", true, true⟩).controlActive = false ∧
      (normalizeRoomState ⟨"482913", "host-user-00001", some "host-user-00001",
        some "s1", some "s1", true, true⟩).cameraActive = false) :=
  ⟨(gateway_step_preserves_invariants initialState
      (GEvent.identify "sock-1" "host-user-00001")).1
      ⟨by simp [initialState], by simp [initialState], by simp [initialState]⟩
      (Or.inr ⟨rfl, by simp [initialState]⟩),
    (gateway_step_preserves_invariants initialState
      (GEvent.identify "sock-1" "host-user-00001")).2
      ⟨"482913", "host-user-00001", some "host-user-00001", some "s1", some "s1",
        true, true⟩ (by decide)⟩

/-- Counterexample to claim C1 as stated: the host connection re-identifies as
a different user and then joins its own room as client; right after that
room:join operation the room has hostSocketId equal to clientSocketId,
violating invariant 3. -/
theorem invariant3_violation_counterexample :
    ∃ r ∈ (execTrace initialState
      [GEvent.identify "s1" "host-user-00001", GEvent.roomCreate "s1" "482913",
       GEvent.identify "s1" "client-two-0002", GEvent.roomJoin "s1" "482913"]).rooms,
      r.hostSocketId.isSome = true ∧ r.hostSocketId = r.clientSocketId ∧ ¬ RoomInv r := by
  decide

/-! One user, one room, one role (claim C4). -/

/-- The user appears in the room, as host or as client. -/
def boundIn (u : String) (r : Room) : Prop :=
  r.hostUserId = u ∨ r.clientUserId = some u

/-- No user appears in both rooms. -/
def NoSharedUser (r1 r2 : Room) : Prop :=
  ∀ u, ¬(boundIn u r1 ∧ boundIn u r2)

/-- Every user is bound to at most one live room, and within it holds at most
one role (the client identity never doubles as the host identity). -/
def UserAtMostOnce (st : ServerState) : Prop :=
  st.rooms.Pairwise NoSharedUser ∧ ∀ r ∈ st.rooms, r.clientUserId ≠ some r.hostUserId

/-- Inductive invariant for claim C4: user-uniqueness plus room-id
uniqueness. -/
def C4Inv (st : ServerState) : Prop :=
  UserAtMostOnce st ∧ (st.rooms.map Room.id).Nodup

/-- The operations claim C4 ranges over (identify is the prerequisite binding
step for the other three). -/
def isUserEvent : GEvent → Bool
  | GEvent.identify _ _ => true
  | GEvent.roomCreate _ _ => true
  | GEvent.roomJoin _ _ => true
  | GEvent.disconnect _ => true
  | _ => false

theorem noSharedUser_symm : Symmetric NoSharedUser := by
  intro r1 r2 h u hu
  exact h u ⟨hu.2, hu.1⟩

theorem normalizeRoomState_clientUserId_cases (r : Room) :
    (normalizeRoomState r).clientUserId = r.clientUserId ∨
    (normalizeRoomState r).clientUserId = none := by
  simp only [normalizeRoomState]
  split_ifs <;> simp

theorem boundIn_normalizeRoomState (u : String) (r : Room)
    (h : boundIn u (normalizeRoomState r)) : boundIn u r := by
  rcases h with h | h
  · exact Or.inl (by rwa [normalizeRoomState_hostUserId] at h)
  · rcases normalizeRoomState_clientUserId_cases r with hc | hc
    · exact Or.inr (by rwa [hc] at h)
    · rw [hc] at h
      exact Option.noConfusion h

theorem attachSocket_id (r : Room) (role : Role) (sid : String) :
    (attachSocket r role sid).id = r.id := by
  cases role <;> rfl

theorem boundIn_attachSocket (u : String) (r : Room) (role : Role) (sid : String) :
    boundIn u (attachSocket r role sid) ↔ boundIn u r := by
  cases role <;> exact Iff.rfl

theorem clearSocket_id (r : Room) (role : Role) : (clearSocket r role).id = r.id := by
  cases role <;> rfl

theorem boundIn_clearSocket (u : String) (r : Room) (role : Role) :
    boundIn u (clearSocket r role) ↔ boundIn u r := by
  cases role <;> exact Iff.rfl

theorem pairwise_setRoom (rooms : List Room) (rid : String) (room' : Room)
    (hnd : (rooms.map Room.id).Nodup) (h : rooms.Pairwise NoSharedUser)
    (h2 : ∀ r ∈ rooms, r.id ≠ rid → NoSharedUser r room' ∧ NoSharedUser room' r) :
    (setRoom rooms rid room').Pairwise NoSharedUser := by
  induction rooms with
  | nil => simp [setRoom]
  | cons r rest ih =>
    simp only [List.map_cons, List.nodup_cons] at hnd
    rcases List.pairwise_cons.mp h with ⟨hr, hrest⟩
    by_cases hid : r.id = rid
    · simp only [setRoom, if_pos hid]
      refine List.Pairwise.cons ?_ hrest
      intro b hb
      have hbid : b.id ≠ rid := by
        intro hbid
        refine hnd.1 ?_
        have hmem : b.id ∈ rest.map Room.id := List.mem_map_of_mem Room.id hb
        rwa [hbid, ← hid] at hmem
      exact (h2 b (List.mem_cons_of_mem _ hb) hbid).2
    · simp only [setRoom, if_neg hid]
      refine List.Pairwise.cons ?_ (ih hnd.2 hrest ?_)
      · intro b hb
        rcases mem_setRoom rest rid room' b hb with hb' | hb'
        · exact hb' ▸ (h2 r (List.mem_cons_self _ _) hid).1
        · exact hr b hb'
      · intro r0 hr0 hr0id
        exact h2 r0 (List.mem_cons_of_mem _ hr0) hr0id

theorem findRoomByUserId_boundIn (rooms : List Room) (u : String) (r : Room)
    (role : Role) (h : findRoomByUserId rooms u = some (r, role)) : boundIn u r := by
  cases role with
  | host => exact Or.inl (findRoomByUserId_host rooms u r h)
  | client => exact Or.inr (findRoomByUserId_client rooms u r h)

theorem findRoomByUserId_none_not_boundIn (rooms : List Room) (u : String)
    (h : findRoomByUserId rooms u = none) : ∀ r ∈ rooms, ¬ boundIn u r := by
  intro r hr hb
  rcases hb with hb | hb
  · exact (findRoomByUserId_none rooms u h r hr).1 hb
  · exact (findRoomByUserId_none rooms u h r hr).2 hb

theorem c4Inv_setRoom_shrink (st : ServerState) (rid : String) (room room' : Room)
    (hInv : C4Inv st) (hmem : room ∈ st.rooms) (hrid : room.id = rid)
    (hid' : room'.id = rid)
    (hsub : ∀ u, boundIn u room' → boundIn u room)
    (hinv1 : room'.clientUserId ≠ some room'.hostUserId) :
    C4Inv { st with rooms := setRoom st.rooms rid room' } := by
  obtain ⟨⟨hpw, hin⟩, hnd⟩ := hInv
  refine ⟨⟨?_, forall_mem_setRoom hin hinv1⟩, ?_⟩
  · refine pairwise_setRoom st.rooms rid room' hnd hpw ?_
    intro r hr hne
    have hrneq : r ≠ room := fun he => hne (he ▸ hrid)
    have hns : NoSharedUser r room :=
      List.Pairwise.forall noSharedUser_symm hpw hr hmem hrneq
    exact ⟨fun u hu => hns u ⟨hu.1, hsub u hu.2⟩,
           fun u hu => hns u ⟨hu.2, hsub u hu.1⟩⟩
  · rw [setRoom_map_id st.rooms rid room' hid']
    exact hnd

theorem c4Inv_restoreSession (st : ServerState) (sid : String) (room : Room) (role : Role)
    (hInv : C4Inv st) (hmem : room ∈ st.rooms) :
    C4Inv (restoreSession st sid room role).1 := by
  unfold restoreSession
  dsimp only
  refine c4Inv_setRoom_shrink st room.id room _ hInv hmem rfl ?_ ?_ ?_
  · rw [normalizeRoomState_id, attachSocket_id, normalizeRoomState_id]
  · intro u hu
    exact boundIn_normalizeRoomState u room
      ((boundIn_attachSocket u _ role sid).mp (boundIn_normalizeRoomState u _ hu))
  · exact (roomInv_normalizeRoomState _).1

theorem c4Inv_identify (st : ServerState) (sid userId : String)
    (hInv : C4Inv st) : C4Inv (handleIdentify st sid userId).1 := by
  unfold handleIdentify
  by_cases hval : isUserId userId = true
  case neg =>
    rw [if_pos (by simp [hval])]
    exact hInv
  rw [if_neg (by simp [hval])]
  dsimp only
  cases hfind : findRoomByUserId st.rooms userId with
  | none => exact hInv
  | some pair =>
    obtain ⟨room, role⟩ := pair
    dsimp only
    exact c4Inv_restoreSession _ sid room role hInv (findRoomByUserId_mem _ _ _ _ hfind)

theorem c4Inv_roomCreate (st : ServerState) (sid freshId : String)
    (hInv : C4Inv st) : C4Inv (handleRoomCreate st sid freshId).1 := by
  unfold handleRoomCreate
  cases hlook : assocLookup st.sockets sid with
  | none => exact hInv
  | some userId =>
    dsimp only
    cases hfind : findRoomByUserId st.rooms userId with
    | none =>
      dsimp only
      obtain ⟨⟨hpw, hin⟩, hnd⟩ := hInv
      split_ifs with hguard
      · refine ⟨⟨?_, ?_⟩, ?_⟩
        · refine List.pairwise_append.mpr ⟨hpw, List.pairwise_singleton _ _, ?_⟩
          intro r hr b hb
          simp only [List.mem_singleton] at hb
          subst hb
          intro u hu
          have hu2 : u = userId := by
            rcases hu.2 with h | h
            · exact h.symm
            · exact Option.noConfusion h
          subst hu2
          exact findRoomByUserId_none_not_boundIn st.rooms u hfind r hr hu.1
        · intro r hr
          rcases List.mem_append.mp hr with h | h
          · exact hin r h
          · simp only [List.mem_singleton] at h
            subst h
            simp
        · rw [List.map_append]
          simp only [List.map_cons, List.map_nil]
          rw [List.nodup_append]
          refine ⟨hnd, List.nodup_singleton _, ?_⟩
          intro a ha hb
          simp only [List.mem_singleton] at hb
          obtain ⟨r, hr, hrid⟩ := List.mem_map.mp ha
          exact getRoom_none st.rooms freshId hguard.2 r hr (hrid.trans hb)
      · exact ⟨⟨hpw, hin⟩, hnd⟩
    | some pair =>
      obtain ⟨room, role⟩ := pair
      cases role with
      | host =>
        dsimp only
        exact c4Inv_restoreSession _ sid room Role.host hInv
          (findRoomByUserId_mem _ _ _ _ hfind)
      | client => exact hInv

theorem c4Inv_roomJoin (st : ServerState) (sid roomId : String)
    (hInv : C4Inv st) : C4Inv (handleRoomJoin st sid roomId).1 := by
  unfold handleRoomJoin
  by_cases hpay : isRoomId roomId = true
  case neg =>
    rw [if_pos (by simp [hpay])]
    exact hInv
  rw [if_neg (by simp [hpay])]
  cases hlook : assocLookup st.sockets sid with
  | none => exact hInv
  | some userId =>
    dsimp only
    cases hroom : getRoom st.rooms roomId with
    | none => exact hInv
    | some room0 =>
      dsimp only
      have hmem0 : room0 ∈ st.rooms := (getRoom_mem _ _ _ hroom).1
      have hid0 : room0.id = roomId := (getRoom_mem _ _ _ hroom).2
      have hnormid : (normalizeRoomState room0).id = roomId := by
        simpa [normalizeRoomState_id] using hid0
      have hInv1 : C4Inv ⟨setRoom st.rooms roomId (normalizeRoomState room0), st.sockets⟩ :=
        c4Inv_setRoom_shrink st roomId room0 _ hInv hmem0 hid0 hnormid
          (boundIn_normalizeRoomState · room0) (roomInv_normalizeRoomState room0).1
      have hmem1 : normalizeRoomState room0 ∈
          setRoom st.rooms roomId (normalizeRoomState room0) :=
        mem_setRoom_self st.rooms roomId (normalizeRoomState room0) ⟨room0, hmem0, hid0⟩
      by_cases hcross : attachedElsewhere (setRoom st.rooms roomId (normalizeRoomState room0))
          userId (normalizeRoomState room0).id = true
      · rw [if_pos hcross]
        exact hInv1
      · rw [if_neg hcross]
        by_cases hhost : (normalizeRoomState room0).hostUserId = userId
        · rw [if_pos hhost]
          exact hInv1
        · rw [if_neg hhost]
          split_ifs with hclient
          · exact hInv1
          · obtain ⟨⟨hpw1, hin1⟩, hnd1⟩ := hInv1
            dsimp only
            refine ⟨⟨?_, forall_mem_setRoom hin1 ?_⟩, ?_⟩
            · refine pairwise_setRoom _ roomId _ hnd1 hpw1 ?_
              intro r hr hne
              have key : ∀ u,
                  boundIn u { normalizeRoomState room0 with
                    clientUserId := some userId, clientSocketId := some sid,
                    controlActive := false, cameraActive := false } → ¬ boundIn u r := by
                intro u hu hur
                have hu' : (normalizeRoomState room0).hostUserId = u ∨ u = userId := by
                  rcases hu with h | h
                  · exact Or.inl h
                  · exact Or.inr (by injection h with h; exact h.symm)
                rcases hu' with hv | hv
                · have hrneq : r ≠ normalizeRoomState room0 := fun he => hne (he ▸ hnormid)
                  exact List.Pairwise.forall noSharedUser_symm hpw1 hr hmem1 hrneq u
                    ⟨hur, Or.inl hv⟩
                · subst hv
                  cases hfind : findRoomByUserId
                      (setRoom st.rooms roomId (normalizeRoomState room0)) u with
                  | none => exact findRoomByUserId_none_not_boundIn _ _ hfind r hr hur
                  | some pair =>
                    obtain ⟨other, orole⟩ := pair
                    have hoid : other.id = (normalizeRoomState room0).id := by
                      unfold attachedElsewhere at hcross
                      rw [hfind] at hcross
                      simpa using hcross
                    have homem : other ∈ setRoom st.rooms roomId (normalizeRoomState room0) :=
                      findRoomByUserId_mem _ _ _ _ hfind
                    have hrneq : r ≠ other := fun he => hne (he ▸ (hoid.trans hnormid))
                    exact List.Pairwise.forall noSharedUser_symm hpw1 hr homem hrneq u
                      ⟨hur, findRoomByUserId_boundIn _ _ _ _ hfind⟩
              exact ⟨fun u hu => key u hu.2 hu.1, fun u hu => key u hu.1 hu.2⟩
            · simpa using fun he => hhost he.symm
            · have hmap := setRoom_map_id
                (setRoom st.rooms roomId (normalizeRoomState room0)) roomId
                { normalizeRoomState room0 with
                  clientUserId := some userId
                  clientSocketId := some sid
                  controlActive := false
                  cameraActive := false } hnormid
              show (List.map Room.id
                (setRoom (setRoom st.rooms roomId (normalizeRoomState room0)) roomId
                  { normalizeRoomState room0 with
                    clientUserId := some userId
                    clientSocketId := some sid
                    controlActive := false
                    cameraActive := false })).Nodup
              rw [hmap]
              exact hnd1

theorem clearSocket_clientUserId (r : Room) (role : Role) :
    (clearSocket r role).clientUserId = r.clientUserId := by
  cases role <;> rfl

theorem clearSocket_hostUserId (r : Room) (role : Role) :
    (clearSocket r role).hostUserId = r.hostUserId := by
  cases role <;> rfl

theorem noSharedUser_clear_left (r0 b : Room) (role : Role)
    (h : NoSharedUser r0 b) : NoSharedUser (clearSocket r0 role) b :=
  fun u hu => h u ⟨(boundIn_clearSocket u r0 role).mp hu.1, hu.2⟩

theorem noSharedUser_clear_right (a r0 : Room) (role : Role)
    (h : NoSharedUser a r0) : NoSharedUser a (clearSocket r0 role) :=
  fun u hu => h u ⟨hu.1, (boundIn_clearSocket u r0 role).mp hu.2⟩

theorem removeSocket_map_id (rooms : List Room) (sid : String) :
    (removeSocketFromRooms rooms sid).1.map Room.id = rooms.map Room.id := by
  induction rooms with
  | nil => rfl
  | cons r rest ih =>
    simp only [removeSocketFromRooms]
    split_ifs <;> simp [clearSocket_id, ih]

theorem pairwise_removeSocket (rooms : List Room) (sid : String)
    (hpw : rooms.Pairwise NoSharedUser) :
    (removeSocketFromRooms rooms sid).1.Pairwise NoSharedUser := by
  induction rooms with
  | nil => exact hpw
  | cons r rest ih =>
    rcases List.pairwise_cons.mp hpw with ⟨hr, hrest⟩
    simp only [removeSocketFromRooms]
    split_ifs with h1 h2
    · exact List.Pairwise.cons (fun b hb => noSharedUser_clear_left r b Role.host (hr b hb))
        hrest
    · exact List.Pairwise.cons (fun b hb => noSharedUser_clear_left r b Role.client (hr b hb))
        hrest
    · dsimp only
      refine List.Pairwise.cons ?_ (ih hrest)
      intro b hb
      rcases mem_removeSocketFromRooms rest sid b hb with h | ⟨b0, hb0, brole, hbrole⟩
      · exact hr b h
      · exact hbrole ▸ noSharedUser_clear_right r b0 brole (hr b0 hb0)

theorem c4Inv_disconnect (st : ServerState) (sid : String)
    (hInv : C4Inv st) : C4Inv (handleDisconnect st sid).1 := by
  obtain ⟨⟨hpw, hin⟩, hnd⟩ := hInv
  have hrooms : ∀ r ∈ (removeSocketFromRooms st.rooms sid).1,
      r.clientUserId ≠ some r.hostUserId := by
    intro r hr
    rcases mem_removeSocketFromRooms st.rooms sid r hr with h | ⟨r0, hr0, role, hrole⟩
    · exact hin r h
    · subst hrole
      rw [clearSocket_clientUserId, clearSocket_hostUserId]
      exact hin r0 hr0
  have hout : C4Inv ⟨(removeSocketFromRooms st.rooms sid).1, assocErase st.sockets sid⟩ :=
    ⟨⟨pairwise_removeSocket st.rooms sid hpw, hrooms⟩,
      by rw [removeSocket_map_id]; exact hnd⟩
  unfold handleDisconnect
  dsimp only
  cases hres : (removeSocketFromRooms st.rooms sid).2 with
  | none => exact hout
  | some pair =>
    obtain ⟨room, role⟩ := pair
    exact hout

/-- Claim C4: for all sequences of createRoom, joinRoom and disconnect events
(with identify as the prerequisite identity-binding step), at every point each
user's identifier appears as hostUserId or clientUserId of at most one live
room, and within that room in at most one role.  Every point of a trace is the
end state of one of its prefixes, and a prefix of an allowed trace is allowed,
so quantifying over all allowed traces covers every intermediate point. -/
theorem user_bound_to_at_most_one_room (evs : List GEvent)
    (h : ∀ e ∈ evs, isUserEvent e = true) :
    UserAtMostOnce (execTrace initialState evs) := by
  have hstep : ∀ (st : ServerState) (e : GEvent), C4Inv st → isUserEvent e = true →
      C4Inv (step st e).1 := by
    intro st e hInv he
    cases e with
    | identify sid userId => exact c4Inv_identify st sid userId hInv
    | roomCreate sid freshId => exact c4Inv_roomCreate st sid freshId hInv
    | roomJoin sid roomId => exact c4Inv_roomJoin st sid roomId hInv
    | disconnect sid => exact c4Inv_disconnect st sid hInv
    | rejoinRoom sid roomId role => exact absurd he (by simp [isUserEvent])
    | webrtcSignal sid roomId signal => exact absurd he (by simp [isUserEvent])
    | controlStatus sid roomId active => exact absurd he (by simp [isUserEvent])
    | cameraRequest sid roomId => exact absurd he (by simp [isUserEvent])
    | cameraPermission sid roomId granted => exact absurd he (by simp [isUserEvent])
    | cameraState sid roomId active => exact absurd he (by simp [isUserEvent])
    | mediaKind sid roomId streamId kind => exact absurd he (by simp [isUserEvent])
  have hmain : ∀ (evs' : List GEvent) (st : ServerState), C4Inv st →
      (∀ e ∈ evs', isUserEvent e = true) → C4Inv (execTrace st evs') := by
    intro evs'
    induction evs' with
    | nil => intro st hInv _; exact hInv
    | cons e rest ih =>
      intro st hInv hall
      exact ih _ (hstep st e hInv (hall e (List.mem_cons_self _ _)))
        (fun e' he' => hall e' (List.mem_cons_of_mem _ he'))
  exact (hmain evs initialState ⟨⟨by simp [initialState], by simp [initialState]⟩,
    by simp [initialState]⟩ h).1

/-- Witness for C4 at a concrete create/join/disconnect trace. -/
theorem user_bound_to_at_most_one_room_witness :
    UserAtMostOnce (execTrace initialState
      [GEvent.identify "s1" "host-user-00001", GEvent.roomCreate "s1" "482913",
       GEvent.identify "s2" "client-one-0001", GEvent.roomJoin "s2" "482913",
       GEvent.disconnect "s2"]) :=
  user_bound_to_at_most_one_room
    [GEvent.identify "s1" "host-user-00001", GEvent.roomCreate "s1" "482913",
     GEvent.identify "s2" "client-one-0001", GEvent.roomJoin "s2" "482913",
     GEvent.disconnect "s2"] (by decide)

end RemoteSupport
